import Mathlib

/-!
# go-kbank: a shallow embedding of `kbank.go`

The program logs into a bank's web portal (`Login`, `CheckSession`) and scrapes
today's transactions from a statement page (`GetTransactions`). This development
embeds the decision logic of `kbank.go` and proves the properties of its
specification, or the nearest properties the code has.

Modelling decisions:

* Go strings are lists of characters (`GoString`). Every pattern and marker of
  the program is ASCII, so matching on characters and on bytes agree.
* The network is a sequence of replies: the `n`-th call of `request` receives
  `reply n` (a transport error or a body), and every request that is issued is
  recorded in `sent`. HTTP status codes play no part, as in the source.
* The regular expressions of the program all have the shape
  `literal (class+) literal`; `Pattern` embeds that shape with Go's
  leftmost-first, greedy, backtracking semantics.
* A run-time panic (index or slice bounds out of range) is an explicit outcome.
* `time.ParseInLocation` is embedded for the one layout of the program,
  `02/01/06 15:04:05`; a `Time` is the civil date and time in its location.
* A `float64` is its IEEE 754 bit pattern; `strconv.ParseFloat` follows its
  documentation, with exact rounding to nearest, ties to even.
* The HTML parser (`goquery`) is a parameter: it gives the rows of the table
  `#trans_detail`, each row with the text of the cells the program reads.
-/

set_option autoImplicit false

namespace GoKBank

/-- A Go `string`. -/
abbrev GoString := List Char

/-! ## Package `strings` -/

/-- Scan of `strings.Index`: the position of the first suffix of the text that
starts with `substr`, counted from `i`, or `-1`. -/
def indexFrom (substr : GoString) : GoString → Nat → Int
  | [], i => if substr.isPrefixOf [] then (i : Int) else -1
  | c :: cs, i =>
    if substr.isPrefixOf (c :: cs) then (i : Int) else indexFrom substr cs (i + 1)

/-- Go `strings.Index(s, substr)`: index of the first instance of `substr` in
`s`, or `-1` if `substr` is not present. -/
def stringsIndex (s substr : GoString) : Int :=
  indexFrom substr s 0

/-! ## Package `regexp`, for the patterns of this program -/

/-- A regular expression `pre(cls+)suf`: the literal `pre`, one capturing group
of one or more characters of the class `cls`, the literal `suf`. -/
structure Pattern where
  pre : GoString
  cls : Char → Bool
  suf : GoString

/-- `[0-9]`. -/
def isDigit (c : Char) : Bool :=
  decide ('0' ≤ c) && decide (c ≤ '9')

/-- `[a-z0-9]`. -/
def isLowerAlnum (c : Char) : Bool :=
  (decide ('a' ≤ c) && decide (c ≤ 'z')) || isDigit c

/-- `[0-9.]`. -/
def isDigitOrDot (c : Char) : Bool :=
  isDigit c || c == '.'

/-- The greedy group followed by the literal suffix: the group takes `k`
characters of `rest` first, then `k - 1`, down to one; the first length after
which `suf` follows wins. The result is the captured group. -/
def Pattern.closeGroup (p : Pattern) (rest : GoString) : Nat → Option GoString
  | 0 => none
  | k + 1 =>
    if p.suf.isPrefixOf (rest.drop (k + 1)) then some (rest.take (k + 1))
    else p.closeGroup rest k

/-- A match of the pattern starting exactly at the head of `s`: the whole match
and the captured group, as Go's submatch slice `[whole, group]`. -/
def Pattern.matchAt (p : Pattern) (s : GoString) : Option (List GoString) :=
  if p.pre.isPrefixOf s then
    match p.closeGroup (s.drop p.pre.length)
        ((s.drop p.pre.length).takeWhile p.cls).length with
    | some g => some [p.pre ++ g ++ p.suf, g]
    | none => none
  else none

/-- Go `(*Regexp).FindStringSubmatch`: the submatch slice of the leftmost match,
or `nil` (the empty slice) when there is none. -/
def Pattern.FindStringSubmatch (p : Pattern) : GoString → List GoString
  | [] => (p.matchAt []).getD []
  | c :: cs =>
    match p.matchAt (c :: cs) with
    | some m => m
    | none => p.FindStringSubmatch cs

/-- Worker of `FindAllStringSubmatch`: `skip` characters still belong to the
previous match; matches do not overlap. -/
def Pattern.findAllFrom (p : Pattern) : Nat → GoString → List (List GoString)
  | _, [] => []
  | skip + 1, _ :: cs => p.findAllFrom skip cs
  | 0, c :: cs =>
    match p.matchAt (c :: cs) with
    | some m => m :: p.findAllFrom ((m.headD []).length - 1) cs
    | none => p.findAllFrom 0 cs

/-- Go `(*Regexp).FindAllStringSubmatch(s, -1)`: the submatch slices of all
successive non-overlapping matches, left to right. -/
def Pattern.FindAllStringSubmatch (p : Pattern) (s : GoString) : List (List GoString) :=
  p.findAllFrom 0 s

/-- What a Go run-time panic of this program can be. -/
inductive Panic where
  | indexOutOfRange
  | sliceBoundsOutOfRange
  deriving DecidableEq, Repr

/-- Either the function returned a value, or it panicked, or its input is one
this embedding does not cover (see `accountIDPattern`). -/
inductive Outcome (α : Type) where
  | returned (a : α)
  | panicked (p : Panic)
  | notModelled
  deriving DecidableEq, Repr

/-- Source `findString(in, index)`:
`if len(in) > index-1 { return in[index] }; return ""`. Indexing a slice out of
its range panics. -/
def findString (inp : List GoString) (index : Int) : Outcome GoString :=
  if (inp.length : Int) > index - 1 then
    if 0 ≤ index then
      match inp.get? index.toNat with
      | some v => .returned v
      | none => .panicked .indexOutOfRange
    else .panicked .indexOutOfRange
  else .returned []

/-! ## The patterns of `kbank.go` -/

/-- Source: `<input type="hidden" name="tokenId" id="tokenId" value="([0-9]+)"/>`. -/
def tokenIDPattern : Pattern where
  pre := "<input type=\"hidden\" name=\"tokenId\" id=\"tokenId\" value=\"".toList
  cls := isDigit
  suf := "\"/>".toList

/-- Source: ` <input type="hidden" name="txtParam" value="([a-z0-9]+)" />`
(the pattern starts with a blank). -/
def txtParamPattern : Pattern where
  pre := " <input type=\"hidden\" name=\"txtParam\" value=\"".toList
  cls := isLowerAlnum
  suf := "\" />".toList

/-- Source:
`<input type="hidden" name="org\.apache\.struts\.taglib\.html\.TOKEN" value="([0-9.]+)">`;
`\.` is a literal dot. -/
def tablibTokenPattern : Pattern where
  pre := "<input type=\"hidden\" name=\"org.apache.struts.taglib.html.TOKEN\" value=\"".toList
  cls := isDigitOrDot
  suf := "\">".toList

/-- Source: `([0-9]+)`. -/
def timePattern : Pattern where
  pre := []
  cls := isDigit
  suf := []

/-! ## The session client -/

/-- Source constant `OnlineEndPoint`. -/
def OnlineEndPoint : GoString := "https://online.kasikornbankgroup.com/K-Online".toList

/-- Source constant `EBankEndPoint`. -/
def EBankEndPoint : GoString := "https://ebank.kasikornbankgroup.com".toList

/-- The `error` values of the program: an error of `client.Do`, or a message
made with `fmt.Errorf`. -/
inductive GoError where
  | transport (msg : GoString)
  | errorf (msg : GoString)
  deriving DecidableEq, Repr

/-- One call of `request`: method, URL and the form values in the order they
were added (`nil` data is replaced by empty values). -/
structure Request where
  method : GoString
  url : GoString
  form : List (GoString × GoString)
  deriving DecidableEq, Repr

/-- The network as the client sees it: `reply n` is what `client.Do` and
`ioutil.ReadAll` give for the `n`-th request (a transport error or the body),
`sent` the requests issued so far. -/
structure Net where
  reply : Nat → Except GoString GoString
  sent : List Request

/-- Source type `KBank` (the HTTP client is the `Net`). -/
structure KBank where
  username : GoString
  password : GoString
  accountNo : GoString
  deriving DecidableEq, Repr

/-- Source `(k *KBank) request(method, u, data)`: performs one request; a
failure of `client.Do` is returned as the error, otherwise the body. -/
def request (net : Net) (method u : GoString) (data : Option (List (GoString × GoString))) :
    Except GoError GoString × Net :=
  let req : Request := ⟨method, u, data.getD []⟩
  let net1 : Net := { net with sent := net.sent ++ [req] }
  match net.reply net.sent.length with
  | .error msg => (.error (.transport msg), net1)
  | .ok body => (.ok body, net1)

/-- The literal `CheckSession` looks for. -/
def sessionMarker : GoString := "<response><result>true</result></response>".toList

/-- Source `(k *KBank) CheckSession()`. -/
def CheckSession (net : Net) : Bool × Net :=
  match request net "POST".toList (OnlineEndPoint ++ "/checkSession.jsp".toList) none with
  | (.error _, net1) => (false, net1)
  | (.ok res, net1) => (decide (stringsIndex res sessionMarker ≠ -1), net1)

/-- Source `(k *KBank) Login()`. The result is the returned `error` (`none` is
`nil`) or a panic, with the network after the call. -/
def Login (k : KBank) (net : Net) : Outcome (Option GoError) × Net :=
  let u := OnlineEndPoint ++ "/login.do".toList
  match request net "GET".toList u none with
  | (.error err, net1) => (.returned (some err), net1)
  | (.ok preResponse, net1) =>
    match findString (tokenIDPattern.FindStringSubmatch preResponse) 1 with
    | .panicked p => (.panicked p, net1)
    | .notModelled => (.notModelled, net1)
    | .returned tokenID =>
      let data : List (GoString × GoString) :=
        [ ("tokenId".toList, tokenID),
          ("userName".toList, k.username),
          ("password".toList, k.password),
          ("cmd".toList, "authenticate".toList),
          ("locale".toList, "en".toList),
          ("custType".toList, []),
          ("app".toList, "0".toList) ]
      match request net1 "POST".toList u (some data) with
      | (.error err, net2) => (.returned (some err), net2)
      | (.ok _, net2) =>
        match CheckSession net2 with
        | (false, net3) =>
          (.returned (some (.errorf "CheckSession: return false".toList)), net3)
        | (true, net3) =>
          match request net3 "GET".toList
              (OnlineEndPoint ++ "/ib/redirectToIB.jsp".toList) none with
          | (.error err, net4) => (.returned (some err), net4)
          | (.ok preResponse2, net4) =>
            match findString (txtParamPattern.FindStringSubmatch preResponse2) 1 with
            | .panicked p => (.panicked p, net4)
            | .notModelled => (.notModelled, net4)
            | .returned txtParam =>
              match request net4 "POST".toList
                  (EBankEndPoint ++ "/retail/security/Welcome.do".toList)
                  (some [("txtParam".toList, txtParam)]) with
              | (.error err, net5) => (.returned (some err), net5)
              | (.ok _, net5) => (.returned none, net5)

/-! ## Package `strings`: `ReplaceAll` -/

/-- Worker of `strings.Replace` for a non-empty `old`: `skip` characters still
belong to the instance of `old` just replaced. -/
def replaceFrom (old new : GoString) : Nat → GoString → GoString
  | _, [] => []
  | skip + 1, _ :: cs => replaceFrom old new skip cs
  | 0, c :: cs =>
    if old.isPrefixOf (c :: cs) then new ++ replaceFrom old new (old.length - 1) cs
    else c :: replaceFrom old new 0 cs

/-- Go `strings.ReplaceAll(s, old, new)`: all non-overlapping instances of `old`
replaced by `new`; an empty `old` matches before every character and at the
end. -/
def stringsReplaceAll (s old new : GoString) : GoString :=
  if old = new then s
  else if old = [] then new ++ s.flatMap (fun c => c :: new)
  else replaceFrom old new 0 s

/-! ## Package `strconv`: `ParseFloat` -/

/-- A Go `float64`, as its IEEE 754 bit pattern (`math.Float64bits`). -/
structure Float64 where
  bits : Nat
  deriving DecidableEq, Repr

/-- The `Err` of a `*strconv.NumError`. -/
inductive NumError where
  | ErrSyntax
  | ErrRange
  deriving DecidableEq, Repr

/-- Number of binary digits of `n`; `fuel` bounds the number of halvings. -/
def bitLenFuel : Nat → Nat → Nat
  | 0, _ => 0
  | fuel + 1, n => if n = 0 then 0 else bitLenFuel fuel (n / 2) + 1

/-- Number of binary digits of `n` (`0` for `0`). -/
def bitLen (n : Nat) : Nat := bitLenFuel n n

/-- The sign bit of a `float64`. -/
def signBit (neg : Bool) : Nat := if neg then 2 ^ 63 else 0

/-- The bits of the `float64` with mantissa `m` (in units of `2 ^ (e - 52)`,
`m < 2 ^ 53`) and binary exponent `e ≥ -1022`, and whether it overflowed: an
exponent above `1023` gives infinity, a mantissa below `2 ^ 52` a subnormal
number. -/
def assembleFloat64 (neg : Bool) (m : Nat) (e : Int) : Float64 × Bool :=
  if 1023 < e then (⟨signBit neg + 2047 * 2 ^ 52⟩, true)
  else if m < 2 ^ 52 then (⟨signBit neg + m⟩, false)
  else (⟨signBit neg + (e + 1023).toNat * 2 ^ 52 + (m - 2 ^ 52)⟩, false)

/-- The positive rational `num / den` (`0 < num`, `0 < den`) rounded to 53
binary digits, to nearest with ties to even: the mantissa `m ≤ 2 ^ 53` and the
binary exponent `e ≥ -1022` of its unit, the result being `m * 2 ^ (e - 52)`. -/
def roundedMantissa (num den : Nat) : Nat × Int :=
  -- binary exponent `e` with `2 ^ e ≤ num / den < 2 ^ (e + 1)`
  let e0 : Int := (bitLen num : Int) - (bitLen den : Int)
  let ge : Bool := if 0 ≤ e0 then decide (den * 2 ^ e0.toNat ≤ num)
    else decide (den ≤ num * 2 ^ (-e0).toNat)
  let e : Int := if ge then e0 else e0 - 1
  -- subnormal results use the exponent `-1022`
  let e1 : Int := if e < -1022 then -1022 else e
  -- mantissa in units of `2 ^ (e1 - 52)`
  let sh : Int := 52 - e1
  let n : Nat := if 0 ≤ sh then num * 2 ^ sh.toNat else num
  let d : Nat := if 0 ≤ sh then den else den * 2 ^ (-sh).toNat
  let q : Nat := n / d
  let r : Nat := n % d
  let up : Bool := decide (d < 2 * r) || (decide (2 * r = d) && decide (q % 2 = 1))
  (if up then q + 1 else q, e1)

/-- IEEE 754 round-to-nearest-even of the positive rational `num / den`
(`0 < num`, `0 < den`) to a `float64`; the flag tells that the result
overflowed to infinity. -/
def roundFloat64 (neg : Bool) (num den : Nat) : Float64 × Bool :=
  if (roundedMantissa num den).1 = 2 ^ 53 then
    assembleFloat64 neg (2 ^ 52) ((roundedMantissa num den).2 + 1)
  else assembleFloat64 neg (roundedMantissa num den).1 (roundedMantissa num den).2

/-- ASCII lower case of `'A'..'Z'`; other characters are kept. -/
def asciiLower (c : Char) : Char :=
  if 'A' ≤ c ∧ c ≤ 'Z' then Char.ofNat (c.toNat + 32) else c

/-- Go `commonPrefixLenIgnoreCase(s, prefix)`, `prefix` in lower case. -/
def commonPrefixLenIgnoreCase : GoString → GoString → Nat
  | c :: cs, p :: ps => if asciiLower c = p then commonPrefixLenIgnoreCase cs ps + 1 else 0
  | _, _ => 0

/-- The `inf` / `infinity` case of `special`: the value and the text left. -/
def specialInf (neg : Bool) (s : GoString) : Option (Float64 × GoString) :=
  let n := commonPrefixLenIgnoreCase s "infinity".toList
  let n1 := if 3 < n ∧ n < 8 then 3 else n
  if n1 = 3 ∨ n1 = 8 then some (⟨signBit neg + 2047 * 2 ^ 52⟩, s.drop n1) else none

/-- Go `strconv.special`: the possibly signed `inf`, `infinity`, and `nan`,
in any letter case, at the start of the text; with the text left after it. -/
def special (s : GoString) : Option (Float64 × GoString) :=
  match s with
  | [] => none
  | c :: cs =>
    if c = '+' then specialInf false cs
    else if c = '-' then specialInf true cs
    else if c = 'i' ∨ c = 'I' then specialInf false (c :: cs)
    else if c = 'n' ∨ c = 'N' then
      if commonPrefixLenIgnoreCase (c :: cs) "nan".toList = 3 then
        some (⟨0x7FF8000000000001⟩, (c :: cs).drop 3)
      else none
    else none

/-- The state of the digit loop of `readFloat`: the mantissa read so far, the
number of digits counted, the position of the point, and the flags. -/
structure Digits where
  mantissa : Nat
  nd : Nat
  dp : Int
  sawdot : Bool
  sawdigits : Bool
  underscores : Bool
  deriving DecidableEq, Repr

/-- Value of a hexadecimal letter `a..f` / `A..F`. -/
def hexLetter (c : Char) : Option Nat :=
  if 'a' ≤ c ∧ c ≤ 'f' then some (c.toNat - 'a'.toNat + 10)
  else if 'A' ≤ c ∧ c ≤ 'F' then some (c.toNat - 'A'.toNat + 10)
  else none

/-- The digit loop of `readFloat`: digits, underscores and at most one point;
stops at the first other character. The mantissa is kept exactly. -/
def readDigits (hex : Bool) : GoString → Digits → Digits × GoString
  | [], st => (st, [])
  | c :: cs, st =>
    if c = '_' then readDigits hex cs { st with underscores := true }
    else if c = '.' then
      if st.sawdot then (st, c :: cs)
      else readDigits hex cs { st with sawdot := true, dp := st.nd }
    else if isDigit c then
      if c = '0' ∧ st.nd = 0 then
        readDigits hex cs { st with sawdigits := true, dp := st.dp - 1 }
      else
        readDigits hex cs { st with
          sawdigits := true, nd := st.nd + 1,
          mantissa := st.mantissa * (if hex then 16 else 10) + (c.toNat - '0'.toNat) }
    else
      match (if hex then hexLetter c else none) with
      | some v =>
        readDigits hex cs { st with
          sawdigits := true, nd := st.nd + 1, mantissa := st.mantissa * 16 + v }
      | none => (st, c :: cs)

/-- The digits of the exponent of `readFloat`, with underscores skipped. -/
def readExponent : GoString → Nat → Bool → Nat × Bool × GoString
  | [], e, u => (e, u, [])
  | c :: cs, e, u =>
    if isDigit c then readExponent cs (e * 10 + (c.toNat - '0'.toNat)) u
    else if c = '_' then readExponent cs e true
    else (e, u, c :: cs)

/-- The scan of Go `strconv.underscoreOK` after the sign and base prefix;
`saw` is the last kind of character seen (`'0'` digit, `'_'`, `'!'` other). -/
def underscoreScan (hex : Bool) : GoString → Char → Bool
  | [], saw => saw != '_'
  | c :: cs, saw =>
    if isDigit c || (hex && (hexLetter c).isSome) then underscoreScan hex cs '0'
    else if c = '_' then
      if saw != '0' then false else underscoreScan hex cs '_'
    else if saw = '_' then false
    else underscoreScan hex cs '!'

/-- Go `strconv.underscoreOK`: underscores stand only between digits, or
between a base prefix and a digit. -/
def underscoreOK (s : GoString) : Bool :=
  let s1 := match s with
    | c :: cs => if c = '-' ∨ c = '+' then cs else s
    | [] => s
  match s1 with
  | '0' :: x :: rest =>
    if asciiLower x = 'b' ∨ asciiLower x = 'o' ∨ asciiLower x = 'x' then
      underscoreScan (asciiLower x = 'x') rest '0'
    else underscoreScan false s1 '^'
  | _ => underscoreScan false s1 '^'

/-- What `readFloat` reads: the sign, the base, the exact mantissa, the
exponent of the base (`10`, or `2` for a hexadecimal number), the position of
the point after the exponent is applied, and the text left. -/
structure FloatText where
  neg : Bool
  hex : Bool
  mantissa : Nat
  exp : Int
  dp : Int
  rest : GoString
  deriving DecidableEq, Repr

/-- Go `strconv.readFloat`, reading a number at the start of the text; `none`
when no number is there. The mantissa and the exponent are kept exactly. -/
def readFloat (s : GoString) : Option FloatText :=
  let neg : Bool := match s with
    | c :: _ => c = '-'
    | [] => false
  let s1 : GoString := match s with
    | c :: cs => if c = '+' ∨ c = '-' then cs else s
    | [] => s
  if s = [] then none else
  let hex : Bool := match s1 with
    | '0' :: x :: _ :: _ => asciiLower x = 'x'
    | _ => false
  let s2 : GoString := if hex then s1.drop 2 else s1
  match readDigits hex s2 ⟨0, 0, 0, false, false, false⟩ with
  | (st, s3) =>
    if ¬ st.sawdigits then none else
    let dp0 : Int := if st.sawdot then st.dp else st.nd
    let dp1 : Int := if hex then dp0 * 4 else dp0
    let nd1 : Int := if hex then (st.nd : Int) * 4 else st.nd
    let finish (dp : Int) (underscores : Bool) (rest : GoString) : Option FloatText :=
      if underscores ∧ ¬ underscoreOK (s.take (s.length - rest.length)) then none
      else some ⟨neg, hex, st.mantissa, dp - nd1, dp, rest⟩
    match s3 with
    | c :: s4 =>
      if asciiLower c = (if hex then 'p' else 'e') then
        match s4 with
        | [] => none
        | d :: s5 =>
          let esign : Int := if d = '-' then -1 else 1
          let s6 : GoString := if d = '+' ∨ d = '-' then s5 else d :: s5
          match s6 with
          | [] => none
          | f :: _ =>
            if ¬ isDigit f then none else
            match readExponent s6 0 st.underscores with
            | (e, u, rest) => finish (dp1 + (e : Int) * esign) u rest
      else if hex then none
      else finish dp1 st.underscores s3
    | [] => if hex then none else finish dp1 st.underscores []

/-- The `float64` nearest to what `readFloat` read, and whether it overflowed:
zero for a zero mantissa; a decimal number with the point beyond `310` digits
overflows and one with the point before `-330` digits is zero, as is a
hexadecimal number beyond those of `float64`; everything else is rounded to
nearest, ties to even. -/
def FloatText.toFloat64 (t : FloatText) : Float64 × Bool :=
  if t.mantissa = 0 then (⟨signBit t.neg⟩, false)
  else if t.hex then
    if 1025 < (bitLen t.mantissa : Int) + t.exp then (⟨signBit t.neg + 2047 * 2 ^ 52⟩, true)
    else if (bitLen t.mantissa : Int) + t.exp < -1080 then (⟨signBit t.neg⟩, false)
    else if 0 ≤ t.exp then roundFloat64 t.neg (t.mantissa * 2 ^ t.exp.toNat) 1
    else roundFloat64 t.neg t.mantissa (2 ^ (-t.exp).toNat)
  else
    if 310 < t.dp then (⟨signBit t.neg + 2047 * 2 ^ 52⟩, true)
    else if t.dp < -330 then (⟨signBit t.neg⟩, false)
    else if 0 ≤ t.exp then roundFloat64 t.neg (t.mantissa * 10 ^ t.exp.toNat) 1
    else roundFloat64 t.neg t.mantissa (10 ^ (-t.exp).toNat)

/-- Go `strconv.ParseFloat(s, 64)`, after its documentation: the nearest
`float64` and no error for a well-formed number; `0` and `ErrSyntax` for a text
that is not a number; `±Inf` and `ErrRange` for a number beyond the largest
`float64`. -/
def ParseFloat (s : GoString) : Float64 × Option NumError :=
  match special s with
  | some (f, rest) => if rest = [] then (f, none) else (⟨0⟩, some .ErrSyntax)
  | none =>
    match readFloat s with
    | none => (⟨0⟩, some .ErrSyntax)
    | some t =>
      if t.rest ≠ [] then (⟨0⟩, some .ErrSyntax)
      else if t.toFloat64.2 then (t.toFloat64.1, some .ErrRange)
      else (t.toFloat64.1, none)

/-! ## Package `time`: `ParseInLocation` with the layout `02/01/06 15:04:05` -/

/-- A Go `time.Time` made by `time.Date`: the civil date and time of day in
the named location. -/
structure Time where
  year : Int
  month : Nat
  day : Nat
  hour : Nat
  minute : Nat
  second : Nat
  nanosecond : Nat
  location : GoString
  deriving DecidableEq, Repr

/-- Value of a decimal digit. -/
def digitVal (c : Char) : Nat := c.toNat - '0'.toNat

/-- Go `time.getnum(s, fixed)`: a one- or two-digit number at the start of `s`;
`fixed` demands two digits. -/
def getnum (s : GoString) (fixed : Bool) : Option (Nat × GoString) :=
  match s with
  | [] => none
  | c0 :: rest =>
    if ¬ isDigit c0 then none
    else
      match rest with
      | [] => if fixed then none else some (digitVal c0, [])
      | c1 :: rest2 =>
        if isDigit c1 then some (digitVal c0 * 10 + digitVal c1, rest2)
        else if fixed then none
        else some (digitVal c0, rest)

/-- Go `time.cutspace`: drops the leading blanks. -/
def cutspace : GoString → GoString
  | ' ' :: cs => cutspace cs
  | s => s

/-- Go `time.skip(value, prefix)` for a one-character prefix other than a
blank: the value has to start with it. -/
def skipChar (value : GoString) (c : Char) : Option GoString :=
  match value with
  | [] => none
  | v :: vs => if v = c then some vs else none

/-- Go `time.skip(value, " ")`: a value that is not empty has to start with a
blank; all leading blanks are dropped. -/
def skipSpace (value : GoString) : Option GoString :=
  match value with
  | [] => some []
  | v :: vs => if v ≠ ' ' then none else some (cutspace (v :: vs))

/-- The leading decimal digits of a text as a number, and the text left. -/
def leadingInt : GoString → Nat → Nat × GoString
  | [], x => (x, [])
  | c :: cs, x => if isDigit c then leadingInt cs (x * 10 + digitVal c) else (x, c :: cs)

/-- Go `time.atoi`: an optional sign and decimal digits, nothing else. -/
def atoi (s : GoString) : Option Int :=
  let neg : Bool := match s with
    | c :: _ => c = '-'
    | [] => false
  let s1 : GoString := match s with
    | c :: cs => if c = '-' ∨ c = '+' then cs else s
    | [] => s
  match leadingInt s1 0 with
  | (q, []) => some (if neg then -(q : Int) else q)
  | (_, _ :: _) => none

/-- Go `time.isLeap`. -/
def isLeap (year : Int) : Bool :=
  year % 4 = 0 ∧ (year % 100 ≠ 0 ∨ year % 400 = 0)

/-- Go `time.daysIn`. -/
def daysIn (month : Nat) (year : Int) : Nat :=
  if month = 2 then (if isLeap year then 29 else 28)
  else if month = 4 ∨ month = 6 ∨ month = 9 ∨ month = 11 then 30
  else 31

/-- Go `time.parseNanoseconds(value, nbytes)`: `value` starts with a period or
comma followed by `nbytes - 1` digits, of which nine count. -/
def parseNanoseconds (value : GoString) (nbytes : Nat) : Option Nat :=
  let nb := if 10 < nbytes then 10 else nbytes
  match atoi ((value.take nb).drop 1) with
  | none => none
  | some ns => if ns < 0 then none else some (ns.toNat * 10 ^ (10 - nb))

/-- The fractional second that `time.Parse` accepts after the seconds although
the layout has none: a period or comma and digits. The result is the
nanoseconds and the text left. -/
def fractionalSecond (value : GoString) : Option (Nat × GoString) :=
  match value with
  | c :: d :: rest =>
    if (c = '.' ∨ c = ',') ∧ isDigit d then
      let n := 2 + (rest.takeWhile isDigit).length
      match parseNanoseconds value n with
      | none => none
      | some ns => some (ns, value.drop n)
    else some (0, value)
  | _ => some (0, value)

/-- Go `time.ParseInLocation("02/01/06 15:04:05", value, loc)`: two-digit day,
`/`, two-digit month, `/`, two-digit year (`69..99` are `1969..1999`, `00..68`
are `2000..2068`), blanks, hour, `:`, two-digit minute, `:`, two-digit second,
and nothing after that; `none` is a parse error. -/
def ParseInLocation (value : GoString) (loc : GoString) : Option Time :=
  match getnum value true with
  | none => none
  | some (day, v1) =>
  match skipChar v1 '/' with
  | none => none
  | some v2 =>
  match getnum v2 true with
  | none => none
  | some (month, v3) =>
  if month = 0 ∨ 12 < month then none else
  match skipChar v3 '/' with
  | none => none
  | some v4 =>
  match v4 with
  | [] => none
  | [_] => none
  | y0 :: y1 :: v5 =>
  match atoi [y0, y1] with
  | none => none
  | some yy =>
  let year : Int := if 69 ≤ yy then yy + 1900 else yy + 2000
  match skipSpace v5 with
  | none => none
  | some v6 =>
  match getnum v6 false with
  | none => none
  | some (hour, v7) =>
  if 24 ≤ hour then none else
  match skipChar v7 ':' with
  | none => none
  | some v8 =>
  match getnum v8 true with
  | none => none
  | some (minute, v9) =>
  if 60 ≤ minute then none else
  match skipChar v9 ':' with
  | none => none
  | some v10 =>
  match getnum v10 true with
  | none => none
  | some (second, v11) =>
  if 60 ≤ second then none else
  match fractionalSecond v11 with
  | none => none
  | some (nsec, v12) =>
  if v12 ≠ [] then none
  else if day < 1 ∨ daysIn month year < day then none
  else some ⟨year, month, day, hour, minute, second, nsec, loc⟩

/-! ## The transaction scraper -/

/-- Source type `Transaction`. -/
structure Transaction where
  Time : Time
  Amount : Float64
  FromAccountNo : GoString
  Detail : GoString
  deriving DecidableEq, Repr

/-- One `tbody tr` of the table `#trans_detail`, as the scraper reads it:
`tdN` is `tr.Find("td:nth-child(N)").Text()`. -/
structure Row where
  td1 : GoString
  td5 : GoString
  td6 : GoString
  td7 : GoString
  deriving DecidableEq, Repr

/-- Source `timeMatches[i][0]`, read after the test `len(timeMatches) != 6`. -/
def matchText (timeMatches : List (List GoString)) (i : Nat) : GoString :=
  (timeMatches.getD i []).headD []

/-- The timestamp of a row (source lines 149-158): `none` when the first cell
does not give six matches of `timePattern` or the composed text does not
parse. The location is `Asia/Bangkok`, taken to be in the zone database. -/
def rowTime (tr : Row) : Option Time :=
  let timeMatches := timePattern.FindAllStringSubmatch tr.td1
  if timeMatches.length ≠ 6 then none
  else
    let timeTxt := matchText timeMatches 0 ++ "/".toList ++ matchText timeMatches 1 ++
      "/".toList ++ matchText timeMatches 2 ++ " ".toList ++ matchText timeMatches 3 ++
      ":".toList ++ matchText timeMatches 4 ++ ":".toList ++ matchText timeMatches 5
    ParseInLocation timeTxt "Asia/Bangkok".toList

/-- The body of the closure given to `Each` (source lines 148-167): what the
row appends to `out`, `none` when the closure returns early. -/
def rowTransaction (tr : Row) : Option Transaction :=
  match rowTime tr with
  | none => none
  | some t =>
    some
      { Time := t
        Amount := (ParseFloat (stringsReplaceAll tr.td5 ",".toList [])).1
        FromAccountNo := stringsReplaceAll tr.td6 "-".toList []
        Detail := tr.td7 }

/-- The loop `Each` over the rows, appending to `out` (source lines 146-168). -/
def scrapeRows (rows : List Row) : List Transaction :=
  rows.foldl
    (fun out tr =>
      match rowTransaction tr with
      | none => out
      | some t => out ++ [t])
    []

/-- Go `s[lo:hi]` on a string; out-of-range bounds panic. -/
def sliceString (s : GoString) (lo hi : Nat) : Outcome GoString :=
  if lo ≤ hi ∧ hi ≤ s.length then .returned ((s.take hi).drop lo)
  else .panicked .sliceBoundsOutOfRange

/-- A character that stands for itself in a Go regular expression: ASCII and
none of the special characters of `regexp.QuoteMeta`. -/
def isRegexLiteral (c : Char) : Bool :=
  decide (c.toNat < 128) && !("\\.+*?()|[]{}^$".toList.contains c)

/-- Source line 127: the pattern
`<option value="([0-9]+)">%s-%s-%s-%s </option>` filled with the slices
`[0:3]`, `[3:4]`, `[4:9]`, `[9:10]` of the account number. The embedding covers
account numbers of ASCII characters whose first ten characters stand for
themselves in a regular expression; others are `notModelled`. -/
def accountIDPattern (accountNo : GoString) : Outcome Pattern :=
  if ¬ accountNo.all (fun c => decide (c.toNat < 128)) then .notModelled
  else
    match sliceString accountNo 0 3 with
    | .panicked p => .panicked p
    | .notModelled => .notModelled
    | .returned a =>
    match sliceString accountNo 3 4 with
    | .panicked p => .panicked p
    | .notModelled => .notModelled
    | .returned b =>
    match sliceString accountNo 4 9 with
    | .panicked p => .panicked p
    | .notModelled => .notModelled
    | .returned c =>
    match sliceString accountNo 9 10 with
    | .panicked p => .panicked p
    | .notModelled => .notModelled
    | .returned d =>
      if (a ++ b ++ c ++ d).all isRegexLiteral then
        .returned
          { pre := "<option value=\"".toList
            cls := isDigit
            suf := "\">".toList ++ a ++ "-".toList ++ b ++ "-".toList ++ c ++ "-".toList ++ d ++
              " </option>".toList }
      else .notModelled

/-- Source `(k *KBank) GetTransactions()`. `doc` stands for
`goquery.NewDocumentFromReader` followed by
`Find("#trans_detail").Find("tbody tr")`: the rows of the parsed body, or the
error of the parser. -/
def GetTransactions (doc : GoString → Except GoError (List Row)) (k : KBank) (net : Net) :
    Outcome (Except GoError (List Transaction)) × Net :=
  let u := EBankEndPoint ++ "/retail/cashmanagement/TodayAccountStatementInquiry.do".toList
  match request net "GET".toList u none with
  | (.error err, net1) => (.returned (.error err), net1)
  | (.ok preResponse, net1) =>
    match findString (tablibTokenPattern.FindStringSubmatch preResponse) 1 with
    | .panicked p => (.panicked p, net1)
    | .notModelled => (.notModelled, net1)
    | .returned taglibToken =>
      match accountIDPattern k.accountNo with
      | .panicked p => (.panicked p, net1)
      | .notModelled => (.notModelled, net1)
      | .returned pattern =>
        match findString (pattern.FindStringSubmatch preResponse) 1 with
        | .panicked p => (.panicked p, net1)
        | .notModelled => (.notModelled, net1)
        | .returned accountID =>
          let data : List (GoString × GoString) :=
            [ ("org.apache.struts.taglib.html.TOKEN".toList, taglibToken),
              ("captcha_check".toList, "null".toList),
              ("acctId".toList, accountID),
              ("action".toList, "detail".toList),
              ("st".toList, "0".toList) ]
          match request net1 "POST".toList u (some data) with
          | (.error err, net2) => (.returned (.error err), net2)
          | (.ok res, net2) =>
            match doc res with
            | .error err => (.returned (.error err), net2)
            | .ok rows => (.returned (.ok (scrapeRows rows)), net2)

/-- The maximal digit groups of a text, in the spec's words: the text is split
at every character that is not a digit and the empty pieces are dropped. -/
def maximalDigitGroups (s : GoString) : List GoString :=
  (s.splitOnP (fun c => !isDigit c)).filter (fun g => !g.isEmpty)

/-- The text `s` holds, at offset `i`, the pattern's literal prefix, then the
non-empty value `v` made of characters of the class, then the literal suffix. -/
def Pattern.OccursAt (p : Pattern) (s : GoString) (i : Nat) (v : GoString) : Prop :=
  v ≠ [] ∧ (∀ c ∈ v, p.cls c = true) ∧ (p.pre ++ v ++ p.suf) <+: s.drop i

/-- The specification of one token kind, in the spec's words: with the literal
prefix `pre`, the character class `cls` and the literal suffix `suf`, the value
`v` extracted from `text` is non-empty exactly when the text holds
`pre ++ w ++ suf` contiguously for some non-empty `w` of the class; and a
non-empty `v` is of the class, stands in the text between `pre` and `suf`, and
no such occurrence starts further left or differs from it at the same place. -/
def LeftmostField (pre : GoString) (cls : Char → Bool) (suf : GoString)
    (text v : GoString) : Prop :=
  (v ≠ [] ↔ ∃ a w b, w ≠ [] ∧ (∀ c ∈ w, cls c = true) ∧ text = a ++ pre ++ w ++ suf ++ b) ∧
  (v ≠ [] →
    (∀ c ∈ v, cls c = true) ∧
    ∃ a b, text = a ++ pre ++ v ++ suf ++ b ∧
      ∀ a2 w b2, w ≠ [] → (∀ c ∈ w, cls c = true) → text = a2 ++ pre ++ w ++ suf ++ b2 →
        a.length < a2.length ∨ (a2 = a ∧ w = v))

/-- The spec's failing step of the login handshake. The requests of `Login` are
numbered 0 (GET login page), 1 (POST credentials), 2 (POST session check),
3 (GET redirect page), 4 (POST welcome); step `i` fails when its request has a
transport error or, at the session check, the body lacks the success marker. -/
def LoginStepFails (net : Net) (i : Nat) : Prop :=
  (∃ msg, net.reply (net.sent.length + i) = .error msg) ∨
  (i = 2 ∧ ∃ body, net.reply (net.sent.length + i) = .ok body ∧
    ¬ "<response><result>true</result></response>".toList <:+: body)

/-! # Theorems -/

/-! ## `strings.Index` finds exactly the substrings -/

theorem indexFrom_ne_iff (substr s : GoString) (i : Nat) :
    indexFrom substr s i ≠ -1 ↔ substr <:+: s := by
  induction s generalizing i with
  | nil =>
    unfold indexFrom
    by_cases h : substr.isPrefixOf [] = true
    · have hp : substr <+: [] := List.isPrefixOf_iff_prefix.mp h
      rw [if_pos h]
      constructor
      · intro _; exact hp.isInfix
      · intro _; omega
    · rw [if_neg h]
      constructor
      · intro hc; simp at hc
      · intro hinf
        exfalso; apply h
        have : substr = [] := List.infix_nil.mp hinf
        subst this; rfl
  | cons c cs ih =>
    unfold indexFrom
    by_cases h : substr.isPrefixOf (c :: cs) = true
    · have hp : substr <+: c :: cs := List.isPrefixOf_iff_prefix.mp h
      rw [if_pos h]
      constructor
      · intro _; exact hp.isInfix
      · intro _; omega
    · rw [if_neg h, ih (i + 1), List.infix_cons_iff]
      constructor
      · intro hc; exact Or.inr hc
      · rintro (hp | hc)
        · exact absurd (List.isPrefixOf_iff_prefix.mpr hp) h
        · exact hc

theorem stringsIndex_ne_iff (s substr : GoString) :
    stringsIndex s substr ≠ -1 ↔ substr <:+: s :=
  indexFrom_ne_iff substr s 0

/-! ## The matcher finds exactly the leftmost, longest occurrence -/

theorem closeGroup_some {p : Pattern} {rest : GoString} {k : Nat} {g : GoString}
    (h : p.closeGroup rest k = some g) :
    ∃ j, 1 ≤ j ∧ j ≤ k ∧ g = rest.take j ∧ p.suf <+: rest.drop j ∧
      ∀ j2, j < j2 → j2 ≤ k → ¬ p.suf <+: rest.drop j2 := by
  induction k with
  | zero => simp [Pattern.closeGroup] at h
  | succ k ih =>
    unfold Pattern.closeGroup at h
    by_cases hs : p.suf.isPrefixOf (rest.drop (k + 1)) = true
    · rw [if_pos hs] at h
      refine ⟨k + 1, by omega, le_refl _, ?_, List.isPrefixOf_iff_prefix.mp hs, ?_⟩
      · exact (Option.some.inj h).symm
      · intro j2 h1 h2; omega
    · rw [if_neg hs] at h
      obtain ⟨j, h1, h2, h3, h4, h5⟩ := ih h
      refine ⟨j, h1, by omega, h3, h4, ?_⟩
      intro j2 hj hk
      by_cases he : j2 = k + 1
      · subst he
        intro hp
        exact hs (List.isPrefixOf_iff_prefix.mpr hp)
      · exact h5 j2 hj (by omega)

theorem closeGroup_none {p : Pattern} {rest : GoString} {k : Nat}
    (h : p.closeGroup rest k = none) :
    ∀ j, 1 ≤ j → j ≤ k → ¬ p.suf <+: rest.drop j := by
  induction k with
  | zero => intro j h1 h2; omega
  | succ k ih =>
    unfold Pattern.closeGroup at h
    by_cases hs : p.suf.isPrefixOf (rest.drop (k + 1)) = true
    · rw [if_pos hs] at h; cases h
    · rw [if_neg hs] at h
      intro j h1 h2
      by_cases he : j = k + 1
      · subst he
        intro hp
        exact hs (List.isPrefixOf_iff_prefix.mpr hp)
      · exact ih h j h1 (by omega)

theorem take_takeWhile_all (cls : Char → Bool) (rest : GoString) (j : Nat)
    (hj : j ≤ (rest.takeWhile cls).length) : ∀ c ∈ rest.take j, cls c = true := by
  induction rest generalizing j with
  | nil => simp
  | cons a as ih =>
    cases j with
    | zero => simp
    | succ j =>
      by_cases ha : cls a = true
      · rw [List.takeWhile_cons_of_pos ha] at hj
        intro c hc
        rw [List.take_succ_cons] at hc
        rcases List.mem_cons.mp hc with h | h
        · rw [h]; exact ha
        · exact ih j (by simpa using hj) c h
      · rw [List.takeWhile_cons_of_neg ha] at hj
        simp at hj

theorem takeWhile_length_ge (cls : Char → Bool) (v t : GoString)
    (hv : ∀ c ∈ v, cls c = true) : v.length ≤ ((v ++ t).takeWhile cls).length := by
  induction v with
  | nil => simp
  | cons a as ih =>
    have ha : cls a = true := hv a (List.mem_cons_self _ _)
    rw [List.cons_append, List.takeWhile_cons_of_pos ha]
    have := ih (fun c hc => hv c (List.mem_cons_of_mem _ hc))
    simp only [List.length_cons]
    omega

theorem occursAt_succ_iff (p : Pattern) (c : Char) (cs v : GoString) (i : Nat) :
    p.OccursAt (c :: cs) (i + 1) v ↔ p.OccursAt cs i v := by
  simp [Pattern.OccursAt]

theorem not_occursAt_nil (p : Pattern) (i : Nat) (v : GoString) : ¬ p.OccursAt [] i v := by
  rintro ⟨h1, _, h3⟩
  rw [List.drop_nil] at h3
  have := List.prefix_nil.mp h3
  simp only [List.append_eq_nil] at this
  exact h1 this.1.2

/-- What `matchAt` returns is an occurrence at the head of the text. -/
theorem matchAt_some {p : Pattern} {s : GoString} {m : List GoString}
    (h : p.matchAt s = some m) :
    ∃ g, m = [p.pre ++ g ++ p.suf, g] ∧ p.OccursAt s 0 g ∧
      ∀ v, p.OccursAt s 0 v → v.length ≤ g.length := by
  unfold Pattern.matchAt at h
  by_cases hp : p.pre.isPrefixOf s = true
  · rw [if_pos hp] at h
    obtain ⟨t, ht⟩ := List.isPrefixOf_iff_prefix.mp hp
    have hdrop : s.drop p.pre.length = t := by rw [← ht]; simp
    rw [hdrop] at h
    cases hc : p.closeGroup t (t.takeWhile p.cls).length with
    | none => rw [hc] at h; cases h
    | some g =>
      rw [hc] at h
      obtain ⟨j, h1, h2, h3, h4, h5⟩ := closeGroup_some hc
      have hlen : (t.takeWhile p.cls).length ≤ t.length :=
        (List.takeWhile_prefix p.cls).length_le
      have hgl : g.length = j := by rw [h3, List.length_take]; omega
      refine ⟨g, (Option.some.inj h).symm, ⟨?_, ?_, ?_⟩, ?_⟩
      · intro hg; rw [hg] at hgl; simp at hgl; omega
      · rw [h3]; exact take_takeWhile_all p.cls t j h2
      · rw [List.drop_zero, ← ht]
        obtain ⟨r, hr⟩ := h4
        refine ⟨r, ?_⟩
        rw [h3]
        have : t = t.take j ++ (p.suf ++ r) := by
          rw [hr]; exact (List.take_append_drop j t).symm
        conv_rhs => rw [this]
        simp [List.append_assoc]
      · rintro v ⟨hv1, hv2, hv3⟩
        rw [List.drop_zero, ← ht] at hv3
        obtain ⟨r, hr⟩ := hv3
        have ht2 : t = v ++ (p.suf ++ r) := by
          have : p.pre ++ (v ++ (p.suf ++ r)) = p.pre ++ t := by
            rw [← hr]; simp [List.append_assoc]
          exact (List.append_cancel_left this).symm
        by_contra hlt
        have hvk : v.length ≤ (t.takeWhile p.cls).length := by
          rw [ht2]; exact takeWhile_length_ge p.cls v _ hv2
        apply h5 v.length (by omega) hvk
        rw [ht2, List.drop_left]
        exact List.prefix_append _ _
  · rw [if_neg hp] at h; cases h

/-- When `matchAt` fails there is no occurrence at the head of the text. -/
theorem matchAt_none {p : Pattern} {s : GoString} (h : p.matchAt s = none) :
    ∀ v, ¬ p.OccursAt s 0 v := by
  rintro v ⟨hv1, hv2, hv3⟩
  rw [List.drop_zero] at hv3
  obtain ⟨r, hr⟩ := hv3
  have hpre : p.pre.isPrefixOf s = true :=
    List.isPrefixOf_iff_prefix.mpr ⟨v ++ (p.suf ++ r), by rw [← hr]; simp [List.append_assoc]⟩
  unfold Pattern.matchAt at h
  rw [if_pos hpre] at h
  have hdrop : s.drop p.pre.length = v ++ (p.suf ++ r) := by
    rw [← hr]; simp [List.append_assoc]
  rw [hdrop] at h
  cases hc : p.closeGroup (v ++ (p.suf ++ r)) ((v ++ (p.suf ++ r)).takeWhile p.cls).length with
  | some g => rw [hc] at h; cases h
  | none =>
    have hvl : 1 ≤ v.length := by
      cases v with
      | nil => exact absurd rfl hv1
      | cons a as => simp
    apply closeGroup_none hc v.length hvl (takeWhile_length_ge p.cls v _ hv2)
    rw [List.drop_left]
    exact List.prefix_append _ _

/-- The result of `FindStringSubmatch`: `nil` when the text holds no occurrence
of the pattern, otherwise the whole match and the group of the leftmost
occurrence, the longest one at that offset. -/
theorem FindStringSubmatch_spec (p : Pattern) (s : GoString) :
    (p.FindStringSubmatch s = [] ∧ ∀ i v, ¬ p.OccursAt s i v) ∨
    (∃ i g, p.FindStringSubmatch s = [p.pre ++ g ++ p.suf, g] ∧ p.OccursAt s i g ∧
      ∀ i2 v, p.OccursAt s i2 v → i < i2 ∨ (i2 = i ∧ v.length ≤ g.length)) := by
  induction s with
  | nil =>
    left
    refine ⟨?_, fun i v => not_occursAt_nil p i v⟩
    unfold Pattern.FindStringSubmatch
    cases hm : p.matchAt [] with
    | none => rfl
    | some m =>
      obtain ⟨g, _, ho, _⟩ := matchAt_some hm
      exact absurd ho (not_occursAt_nil p 0 g)
  | cons c cs ih =>
    unfold Pattern.FindStringSubmatch
    cases hm : p.matchAt (c :: cs) with
    | some m =>
      right
      obtain ⟨g, hg, ho, hmax⟩ := matchAt_some hm
      refine ⟨0, g, hg, ho, ?_⟩
      intro i2 v hv
      cases i2 with
      | zero => exact Or.inr ⟨rfl, hmax v hv⟩
      | succ n => exact Or.inl (Nat.succ_pos n)
    | none =>
      have hnone := matchAt_none hm
      rcases ih with ⟨h1, h2⟩ | ⟨i, g, h1, h2, h3⟩
      · left
        refine ⟨h1, ?_⟩
        intro i v hv
        cases i with
        | zero => exact hnone v hv
        | succ n => exact h2 n v ((occursAt_succ_iff p c cs v n).mp hv)
      · right
        refine ⟨i + 1, g, h1, (occursAt_succ_iff p c cs g i).mpr h2, ?_⟩
        intro i2 v hv
        cases i2 with
        | zero => exact absurd hv (hnone v)
        | succ n =>
          rcases h3 n v ((occursAt_succ_iff p c cs v n).mp hv) with h | ⟨h, h4⟩
          · left; omega
          · right; exact ⟨by omega, h4⟩

theorem occursAt_iff_split (p : Pattern) (s v : GoString) (i : Nat) :
    p.OccursAt s i v ↔
      v ≠ [] ∧ (∀ c ∈ v, p.cls c = true) ∧
        ∃ a b, a.length = i ∧ s = a ++ p.pre ++ v ++ p.suf ++ b := by
  constructor
  · rintro ⟨h1, h2, b, hb⟩
    refine ⟨h1, h2, s.take i, b, ?_, ?_⟩
    · rw [List.length_take]
      have hne : s.drop i ≠ [] := by
        rw [← hb]
        cases v with
        | nil => exact absurd rfl h1
        | cons x xs => simp
      have : i < s.length := by
        by_contra hge
        exact hne (List.drop_eq_nil_of_le (by omega))
      omega
    · have h : s = s.take i ++ (p.pre ++ v ++ p.suf ++ b) := by
        rw [hb]; exact (List.take_append_drop i s).symm
      simpa [List.append_assoc] using h
  · rintro ⟨h1, h2, a, b, ha, hs⟩
    refine ⟨h1, h2, b, ?_⟩
    have : s = a ++ (p.pre ++ v ++ p.suf ++ b) := by rw [hs]; simp [List.append_assoc]
    rw [this, ← ha, List.drop_left]

/-- When the suffix starts with a character outside the class, the value of
an occurrence is determined by where the occurrence starts. -/
theorem occursAt_unique (p : Pattern) (q : Char) (qs : GoString) (hsuf : p.suf = q :: qs)
    (hq : p.cls q = false) (s v w : GoString) (i : Nat)
    (hv : p.OccursAt s i v) (hw : p.OccursAt s i w) : w = v := by
  obtain ⟨_, hv2, r, hr⟩ := hv
  obtain ⟨_, hw2, r2, hr2⟩ := hw
  have heq : v ++ (p.suf ++ r) = w ++ (p.suf ++ r2) := by
    have : p.pre ++ (v ++ (p.suf ++ r)) = p.pre ++ (w ++ (p.suf ++ r2)) := by
      have h1 : p.pre ++ (v ++ (p.suf ++ r)) = s.drop i := by
        rw [← hr]; simp [List.append_assoc]
      have h2 : p.pre ++ (w ++ (p.suf ++ r2)) = s.drop i := by
        rw [← hr2]; simp [List.append_assoc]
      rw [h1, h2]
    exact List.append_cancel_left this
  rw [hsuf] at heq
  rcases List.append_eq_append_iff.mp heq with ⟨x, hx1, hx2⟩ | ⟨x, hx1, hx2⟩
  · cases x with
    | nil => simpa using hx1
    | cons y ys =>
      exfalso
      have hy : y = q := by
        simp only [List.cons_append] at hx2
        exact (List.cons.inj hx2).1.symm
      have : p.cls y = true := hw2 y (by rw [hx1]; simp)
      rw [hy, hq] at this
      exact Bool.false_ne_true this
  · cases x with
    | nil => simpa using hx1.symm
    | cons y ys =>
      exfalso
      have hy : y = q := by
        simp only [List.cons_append] at hx2
        exact (List.cons.inj hx2).1.symm
      have : p.cls y = true := hv2 y (by rw [hx1]; simp)
      rw [hy, hq] at this
      exact Bool.false_ne_true this

theorem findString_nil_one : findString [] 1 = .returned [] := by
  simp [findString]

theorem findString_pair_one (w g : GoString) : findString [w, g] 1 = .returned g := by
  simp [findString]

/-- Extraction with `findString` at index `1` never panics, and the value is
the field of the leftmost occurrence. -/
theorem extract_leftmostField (p : Pattern) (q : Char) (qs : GoString)
    (hsuf : p.suf = q :: qs) (hq : p.cls q = false) (text : GoString) :
    ∃ v, findString (p.FindStringSubmatch text) 1 = .returned v ∧
      LeftmostField p.pre p.cls p.suf text v := by
  rcases FindStringSubmatch_spec p text with ⟨h1, h2⟩ | ⟨i, g, h1, h2, h3⟩
  · refine ⟨[], by rw [h1]; exact findString_nil_one, ?_, ?_⟩
    · constructor
      · intro h; exact absurd rfl h
      · rintro ⟨a, w, b, hw1, hw2, hw3⟩
        exfalso
        exact h2 a.length w ((occursAt_iff_split p text w a.length).mpr
          ⟨hw1, hw2, a, b, rfl, hw3⟩)
    · intro h; exact absurd rfl h
  · obtain ⟨hg1, hg2, a, b, ha, hs⟩ := (occursAt_iff_split p text g i).mp h2
    refine ⟨g, by rw [h1]; exact findString_pair_one _ _, ?_, ?_⟩
    · constructor
      · intro _; exact ⟨a, g, b, hg1, hg2, hs⟩
      · intro _; exact hg1
    · intro _
      refine ⟨hg2, a, b, hs, ?_⟩
      intro a2 w b2 hw1 hw2 hw3
      have ho : p.OccursAt text a2.length w :=
        (occursAt_iff_split p text w a2.length).mpr ⟨hw1, hw2, a2, b2, rfl, hw3⟩
      rcases h3 a2.length w ho with h | ⟨h, _⟩
      · left; omega
      · right
        rw [h] at ho
        have hwv : w = g := occursAt_unique p q qs hsuf hq text g w i h2 ho
        refine ⟨?_, hwv⟩
        have hlen : a2.length = a.length := by omega
        have e : a2 ++ (p.pre ++ w ++ p.suf ++ b2) = a ++ (p.pre ++ g ++ p.suf ++ b) := by
          have e1 : a2 ++ (p.pre ++ w ++ p.suf ++ b2) = text := by
            rw [hw3]; simp [List.append_assoc]
          have e2 : a ++ (p.pre ++ g ++ p.suf ++ b) = text := by
            rw [hs]; simp [List.append_assoc]
          rw [e1, e2]
        exact (List.append_inj e hlen).1

/-! ## `timePattern` finds the maximal digit groups -/

theorem take_length_takeWhile (q : Char → Bool) (s : GoString) :
    s.take (s.takeWhile q).length = s.takeWhile q := by
  induction s with
  | nil => rfl
  | cons a as ih =>
    by_cases ha : q a = true
    · rw [List.takeWhile_cons_of_pos ha, List.length_cons, List.take_succ_cons, ih]
    · rw [List.takeWhile_cons_of_neg ha]; rfl

theorem drop_length_takeWhile (q : Char → Bool) (s : GoString) :
    s.drop (s.takeWhile q).length = s.dropWhile q := by
  induction s with
  | nil => rfl
  | cons a as ih =>
    by_cases ha : q a = true
    · rw [List.takeWhile_cons_of_pos ha, List.dropWhile_cons_of_pos ha, List.length_cons,
        List.drop_succ_cons, ih]
    · rw [List.takeWhile_cons_of_neg ha, List.dropWhile_cons_of_neg ha]; rfl

theorem dropWhile_head_not (q : Char → Bool) (s : GoString) (d : Char) (rest : GoString)
    (h : s.dropWhile q = d :: rest) : q d = false := by
  induction s with
  | nil => simp at h
  | cons a as ih =>
    by_cases ha : q a = true
    · rw [List.dropWhile_cons_of_pos ha] at h; exact ih h
    · rw [List.dropWhile_cons_of_neg ha] at h
      have : a = d := (List.cons.inj h).1
      rw [← this]; simpa using ha

theorem matchAt_timePattern_digit (c : Char) (cs : GoString) (hc : isDigit c = true) :
    timePattern.matchAt (c :: cs) =
      some [c :: cs.takeWhile isDigit, c :: cs.takeWhile isDigit] := by
  have htw : (c :: cs).takeWhile isDigit = c :: cs.takeWhile isDigit :=
    List.takeWhile_cons_of_pos hc
  have hcg : timePattern.closeGroup (c :: cs) ((cs.takeWhile isDigit).length + 1) =
      some ((c :: cs).take ((cs.takeWhile isDigit).length + 1)) := by
    simp [Pattern.closeGroup, timePattern]
  have htake : (c :: cs).take ((cs.takeWhile isDigit).length + 1) =
      c :: cs.takeWhile isDigit := by
    rw [List.take_succ_cons, take_length_takeWhile]
  unfold Pattern.matchAt
  have hpre : timePattern.pre = [] := rfl
  have hcls : timePattern.cls = isDigit := rfl
  have hsuf : timePattern.suf = [] := rfl
  rw [hpre, hcls]
  simp only [List.isPrefixOf, List.length_nil, List.drop_zero, if_true, htw, List.length_cons]
  rw [hcg, htake, hsuf]
  simp

theorem matchAt_timePattern_other (c : Char) (cs : GoString) (hc : isDigit c = false) :
    timePattern.matchAt (c :: cs) = none := by
  have htw : (c :: cs).takeWhile isDigit = [] :=
    List.takeWhile_cons_of_neg (by simp [hc])
  unfold Pattern.matchAt
  have hpre : timePattern.pre = [] := rfl
  have hcls : timePattern.cls = isDigit := rfl
  rw [hpre, hcls]
  simp only [List.isPrefixOf, List.length_nil, List.drop_zero, if_true, htw]
  rfl

theorem findAllFrom_skip (p : Pattern) (skip : Nat) (s : GoString) :
    p.findAllFrom skip s = p.findAllFrom 0 (s.drop skip) := by
  induction s generalizing skip with
  | nil => cases skip <;> simp [Pattern.findAllFrom]
  | cons c cs ih =>
    cases skip with
    | zero => rfl
    | succ n =>
      rw [List.drop_succ_cons, ← ih n]
      rfl

theorem findAll_timePattern_digit (c : Char) (cs : GoString) (hc : isDigit c = true) :
    timePattern.findAllFrom 0 (c :: cs) =
      [c :: cs.takeWhile isDigit, c :: cs.takeWhile isDigit] ::
        timePattern.findAllFrom 0 (cs.dropWhile isDigit) := by
  rw [Pattern.findAllFrom, matchAt_timePattern_digit c cs hc]
  simp only [List.headD_cons, List.length_cons, Nat.add_sub_cancel]
  rw [findAllFrom_skip, drop_length_takeWhile]

theorem findAll_timePattern_other (c : Char) (cs : GoString) (hc : isDigit c = false) :
    timePattern.findAllFrom 0 (c :: cs) = timePattern.findAllFrom 0 cs := by
  rw [Pattern.findAllFrom, matchAt_timePattern_other c cs hc]

theorem splitOnP_notDigit (s : GoString) :
    s.splitOnP (fun c => !isDigit c) =
      s.takeWhile isDigit ::
        (match s.dropWhile isDigit with
          | [] => []
          | _ :: rest => rest.splitOnP (fun c => !isDigit c)) := by
  induction s with
  | nil => rfl
  | cons x xs ih =>
    rw [List.splitOnP_cons]
    by_cases hx : isDigit x = true
    · rw [List.takeWhile_cons_of_pos hx, List.dropWhile_cons_of_pos hx]
      simp only [hx, Bool.not_true, Bool.false_eq_true, if_false]
      rw [ih]
      rfl
    · rw [List.takeWhile_cons_of_neg hx, List.dropWhile_cons_of_neg hx]
      simp [hx]

theorem maximalDigitGroups_other (c : Char) (cs : GoString) (hc : isDigit c = false) :
    maximalDigitGroups (c :: cs) = maximalDigitGroups cs := by
  unfold maximalDigitGroups
  rw [List.splitOnP_cons]
  simp [hc]

theorem maximalDigitGroups_digit (c : Char) (cs : GoString) (hc : isDigit c = true) :
    maximalDigitGroups (c :: cs) =
      (c :: cs.takeWhile isDigit) :: maximalDigitGroups (cs.dropWhile isDigit) := by
  have h1 : (c :: cs).splitOnP (fun c => !isDigit c) =
      (c :: cs.takeWhile isDigit) ::
        (match cs.dropWhile isDigit with
          | [] => []
          | _ :: rest => rest.splitOnP (fun c => !isDigit c)) := by
    rw [splitOnP_notDigit, List.takeWhile_cons_of_pos hc, List.dropWhile_cons_of_pos hc]
  unfold maximalDigitGroups
  rw [h1]
  cases hd : cs.dropWhile isDigit with
  | nil => simp
  | cons d rest =>
    have hdn : isDigit d = false := dropWhile_head_not isDigit cs d rest hd
    rw [List.splitOnP_cons]
    simp [hdn]

/-- The matches of `timePattern` are the maximal digit groups of the text, each
as the submatch slice `[group, group]`. -/
theorem findAll_timePattern (s : GoString) :
    timePattern.FindAllStringSubmatch s = (maximalDigitGroups s).map (fun g => [g, g]) := by
  unfold Pattern.FindAllStringSubmatch
  have key : ∀ (n : Nat) (s : GoString), s.length = n →
      timePattern.findAllFrom 0 s = (maximalDigitGroups s).map (fun g => [g, g]) := by
    intro n
    induction n using Nat.strong_induction_on with
    | _ n ih =>
      intro s hn
      cases s with
      | nil => rfl
      | cons c cs =>
        by_cases hc : isDigit c = true
        · rw [findAll_timePattern_digit c cs hc, maximalDigitGroups_digit c cs hc,
            List.map_cons]
          have hlen : (cs.dropWhile isDigit).length < n := by
            have := (List.dropWhile_suffix isDigit (l := cs)).length_le
            rw [← hn, List.length_cons]; omega
          rw [ih _ hlen (cs.dropWhile isDigit) rfl]
        · have hc2 : isDigit c = false := by simpa using hc
          rw [findAll_timePattern_other c cs hc2, maximalDigitGroups_other c cs hc2]
          exact ih cs.length (by rw [← hn]; simp) cs rfl
  exact key s.length s rfl

theorem matchText_map (gs : List GoString) (i : Nat) :
    matchText (gs.map (fun g => [g, g])) i = gs.getD i [] := by
  unfold matchText
  induction gs generalizing i with
  | nil => simp
  | cons g gs ih =>
    cases i with
    | zero => simp
    | succ n => simpa using ih n

/-- The timestamp text of a row with six digit groups. -/
theorem rowTime_of_groups (tr : Row) (g0 g1 g2 g3 g4 g5 : GoString)
    (h : maximalDigitGroups tr.td1 = [g0, g1, g2, g3, g4, g5]) :
    rowTime tr =
      ParseInLocation (g0 ++ "/".toList ++ g1 ++ "/".toList ++ g2 ++ " ".toList ++ g3 ++
        ":".toList ++ g4 ++ ":".toList ++ g5) "Asia/Bangkok".toList := by
  unfold rowTime
  simp only [findAll_timePattern, h, matchText_map]
  simp

theorem rowTime_some_groups (tr : Row) (t : Time) (h : rowTime tr = some t) :
    (maximalDigitGroups tr.td1).length = 6 := by
  unfold rowTime at h
  simp only [findAll_timePattern, List.length_map] at h
  by_contra hne
  simp [hne] at h

theorem rowTime_none_of_groups (tr : Row) (h : (maximalDigitGroups tr.td1).length ≠ 6) :
    rowTime tr = none := by
  cases ht : rowTime tr with
  | none => rfl
  | some t => exact absurd (rowTime_some_groups tr t ht) h

/-! ## The loop over the rows -/

theorem foldl_rowTransaction (rows : List Row) (acc : List Transaction) :
    rows.foldl
        (fun out tr =>
          match rowTransaction tr with
          | none => out
          | some t => out ++ [t])
        acc =
      acc ++ rows.filterMap rowTransaction := by
  induction rows generalizing acc with
  | nil => simp
  | cons r rs ih =>
    rw [List.foldl_cons, ih]
    cases hr : rowTransaction r with
    | none => simp [List.filterMap_cons, hr]
    | some t => simp [List.filterMap_cons, hr]

theorem scrapeRows_eq_filterMap (rows : List Row) :
    scrapeRows rows = rows.filterMap rowTransaction := by
  unfold scrapeRows
  rw [foldl_rowTransaction]
  rfl

/-! ## `strings.ReplaceAll` with a one-character `old` and an empty `new` -/

theorem replaceFrom_single (x : Char) (s : GoString) :
    replaceFrom [x] [] 0 s = s.filter (fun c => c != x) := by
  induction s with
  | nil => rfl
  | cons c cs ih =>
    unfold replaceFrom
    by_cases hc : c = x
    · subst hc
      simp [List.isPrefixOf, ih]
    · have hxc : ¬ x = c := fun h => hc h.symm
      simp [List.isPrefixOf, ih, hc, hxc]

theorem stringsReplaceAll_single (x : Char) (s : GoString) :
    stringsReplaceAll s [x] [] = s.filter (fun c => c != x) := by
  unfold stringsReplaceAll
  simp [replaceFrom_single]

/-! ## The login handshake, step by step -/

/-- Extraction with `findString` at index `1` returns for every pattern. -/
theorem findString_returns (p : Pattern) (text : GoString) :
    ∃ v, findString (p.FindStringSubmatch text) 1 = .returned v := by
  rcases FindStringSubmatch_spec p text with ⟨h1, _⟩ | ⟨i, g, h1, _, _⟩
  · exact ⟨[], by rw [h1]; exact findString_nil_one⟩
  · exact ⟨g, by rw [h1]; exact findString_pair_one _ _⟩

theorem Login_fail0 (k : KBank) (net : Net) (msg : GoString)
    (h0 : net.reply net.sent.length = .error msg) :
    (Login k net).1 = .returned (some (.transport msg)) ∧
      (Login k net).2.sent.length = net.sent.length + 1 := by
  simp [Login, request, h0]

theorem Login_fail1 (k : KBank) (net : Net) (b0 msg : GoString)
    (h0 : net.reply net.sent.length = .ok b0)
    (h1 : net.reply (net.sent.length + 1) = .error msg) :
    (Login k net).1 = .returned (some (.transport msg)) ∧
      (Login k net).2.sent.length = net.sent.length + 2 := by
  obtain ⟨v, hv⟩ := findString_returns tokenIDPattern b0
  simp [Login, request, h0, hv, h1]

theorem Login_fail2 (k : KBank) (net : Net) (b0 b1 : GoString)
    (h0 : net.reply net.sent.length = .ok b0)
    (h1 : net.reply (net.sent.length + 1) = .ok b1)
    (h2 : (∃ msg, net.reply (net.sent.length + 2) = .error msg) ∨
      ∃ body, net.reply (net.sent.length + 2) = .ok body ∧ ¬ sessionMarker <:+: body) :
    (Login k net).1 = .returned (some (.errorf "CheckSession: return false".toList)) ∧
      (Login k net).2.sent.length = net.sent.length + 3 := by
  obtain ⟨v, hv⟩ := findString_returns tokenIDPattern b0
  rcases h2 with ⟨msg, h2⟩ | ⟨b2, h2, hm⟩
  · simp [Login, CheckSession, request, h0, hv, h1, h2, Nat.add_assoc]
  · simp [Login, CheckSession, request, h0, hv, h1, h2, Nat.add_assoc, stringsIndex_ne_iff, hm]

theorem Login_fail3 (k : KBank) (net : Net) (b0 b1 b2 msg : GoString)
    (h0 : net.reply net.sent.length = .ok b0)
    (h1 : net.reply (net.sent.length + 1) = .ok b1)
    (h2 : net.reply (net.sent.length + 2) = .ok b2) (hm : sessionMarker <:+: b2)
    (h3 : net.reply (net.sent.length + 3) = .error msg) :
    (Login k net).1 = .returned (some (.transport msg)) ∧
      (Login k net).2.sent.length = net.sent.length + 4 := by
  obtain ⟨v, hv⟩ := findString_returns tokenIDPattern b0
  simp [Login, CheckSession, request, h0, hv, h1, h2, h3, Nat.add_assoc, stringsIndex_ne_iff, hm]

theorem Login_fail4 (k : KBank) (net : Net) (b0 b1 b2 b3 msg : GoString)
    (h0 : net.reply net.sent.length = .ok b0)
    (h1 : net.reply (net.sent.length + 1) = .ok b1)
    (h2 : net.reply (net.sent.length + 2) = .ok b2) (hm : sessionMarker <:+: b2)
    (h3 : net.reply (net.sent.length + 3) = .ok b3)
    (h4 : net.reply (net.sent.length + 4) = .error msg) :
    (Login k net).1 = .returned (some (.transport msg)) ∧
      (Login k net).2.sent.length = net.sent.length + 5 := by
  obtain ⟨v, hv⟩ := findString_returns tokenIDPattern b0
  obtain ⟨w, hw⟩ := findString_returns txtParamPattern b3
  simp [Login, CheckSession, request, h0, hv, h1, h2, h3, hw, h4, Nat.add_assoc,
    stringsIndex_ne_iff, hm]

theorem Login_success (k : KBank) (net : Net) (b0 b1 b2 b3 b4 : GoString)
    (h0 : net.reply net.sent.length = .ok b0)
    (h1 : net.reply (net.sent.length + 1) = .ok b1)
    (h2 : net.reply (net.sent.length + 2) = .ok b2) (hm : sessionMarker <:+: b2)
    (h3 : net.reply (net.sent.length + 3) = .ok b3)
    (h4 : net.reply (net.sent.length + 4) = .ok b4) :
    (Login k net).1 = .returned none ∧
      (Login k net).2.sent.length = net.sent.length + 5 := by
  obtain ⟨v, hv⟩ := findString_returns tokenIDPattern b0
  obtain ⟨w, hw⟩ := findString_returns txtParamPattern b3
  simp [Login, CheckSession, request, h0, hv, h1, h2, h3, hw, h4, Nat.add_assoc,
    stringsIndex_ne_iff, hm]
/-- A step that does not fail has a body, with the marker at the session
check. -/
theorem not_loginStepFails (net : Net) (i : Nat) (h : ¬ LoginStepFails net i) :
    ∃ body, net.reply (net.sent.length + i) = .ok body ∧
      (i = 2 → sessionMarker <:+: body) := by
  cases hr : net.reply (net.sent.length + i) with
  | error msg => exact absurd (Or.inl ⟨msg, hr⟩) h
  | ok body =>
    refine ⟨body, rfl, ?_⟩
    intro hi
    by_contra hno
    exact h (Or.inr ⟨hi, body, hr, hno⟩)

/-! ## The statement inquiry, step by step -/

theorem isDigit_toNat (c : Char) (h : isDigit c = true) : 48 ≤ c.toNat ∧ c.toNat ≤ 57 := by
  unfold isDigit at h
  simp only [Bool.and_eq_true, decide_eq_true_eq] at h
  obtain ⟨h1, h2⟩ := h
  rw [Char.le_def] at h1 h2
  exact ⟨h1, h2⟩

theorem isDigit_mem (c : Char) (h : isDigit c = true) :
    c ∈ ['0', '1', '2', '3', '4', '5', '6', '7', '8', '9'] := by
  obtain ⟨h1, h2⟩ := isDigit_toNat c h
  have hc : Char.ofNat c.toNat = c := Char.ofNat_toNat c
  generalize c.toNat = n at h1 h2 hc
  interval_cases n <;> (rw [← hc]; decide)

theorem isDigit_ascii (c : Char) (h : isDigit c = true) : decide (c.toNat < 128) = true := by
  have := isDigit_toNat c h
  simp only [decide_eq_true_eq]
  omega

theorem isDigit_regexLiteral (c : Char) (h : isDigit c = true) : isRegexLiteral c = true := by
  have hm := isDigit_mem c h
  simp only [List.mem_cons, List.mem_singleton, List.not_mem_nil, or_false] at hm
  rcases hm with h | h | h | h | h | h | h | h | h | h <;> (rw [h]; decide)

/-- The pattern for an account number of ten digits. -/
theorem accountIDPattern_digits (a : GoString) (hlen : a.length = 10)
    (hd : ∀ c ∈ a, isDigit c = true) :
    accountIDPattern a = .returned
      { pre := "<option value=\"".toList
        cls := isDigit
        suf := "\">".toList ++ a.take 3 ++ "-".toList ++ (a.drop 3).take 1 ++ "-".toList ++
          (a.drop 4).take 5 ++ "-".toList ++ (a.drop 9).take 1 ++ " </option>".toList } := by
  have hascii : a.all (fun c => decide (c.toNat < 128)) = true :=
    List.all_eq_true.mpr (fun c hc => isDigit_ascii c (hd c hc))
  match a, hlen, hd, hascii with
  | [a0, a1, a2, a3, a4, a5, a6, a7, a8, a9], _, hd, hascii =>
    unfold accountIDPattern
    rw [hascii]
    simp only [sliceString, List.length_cons, List.length_nil]
    simp only [List.take, List.drop] 
    simp only [List.cons_append, List.nil_append, List.all_cons, List.all_nil, Bool.and_true,
      Bool.and_eq_true, le_refl, Nat.zero_le, Nat.le_refl, and_self, if_true]
    simp
    refine ⟨?_, ?_, ?_, ?_, ?_, ?_, ?_, ?_, ?_, ?_⟩ <;>
      exact isDigit_regexLiteral _ (hd _ (by simp))

/-- `GetTransactions` when the first request fails. -/
theorem GetTransactions_fail0 (doc : GoString → Except GoError (List Row)) (k : KBank)
    (net : Net) (msg : GoString) (h0 : net.reply net.sent.length = .error msg) :
    (GetTransactions doc k net).1 = .returned (.error (.transport msg)) ∧
      (GetTransactions doc k net).2.sent.length = net.sent.length + 1 := by
  simp [GetTransactions, request, h0]

/-- `GetTransactions` after the statement-inquiry page came: it posts the two
extracted values and its result is decided by the answer to that POST. -/
theorem GetTransactions_ok0 (doc : GoString → Except GoError (List Row)) (k : KBank)
    (net : Net) (text : GoString) (pat : Pattern)
    (h0 : net.reply net.sent.length = .ok text)
    (hp : accountIDPattern k.accountNo = .returned pat) :
    ∃ tok acc,
      findString (tablibTokenPattern.FindStringSubmatch text) 1 = .returned tok ∧
      findString (pat.FindStringSubmatch text) 1 = .returned acc ∧
      (GetTransactions doc k net).2.sent = net.sent ++
        [ ⟨"GET".toList,
            EBankEndPoint ++ "/retail/cashmanagement/TodayAccountStatementInquiry.do".toList, []⟩,
          ⟨"POST".toList,
            EBankEndPoint ++ "/retail/cashmanagement/TodayAccountStatementInquiry.do".toList,
            [ ("org.apache.struts.taglib.html.TOKEN".toList, tok),
              ("captcha_check".toList, "null".toList),
              ("acctId".toList, acc),
              ("action".toList, "detail".toList),
              ("st".toList, "0".toList) ]⟩ ] ∧
      (GetTransactions doc k net).1 =
        (match net.reply (net.sent.length + 1) with
          | .error msg => .returned (.error (.transport msg))
          | .ok res =>
            match doc res with
            | .error err => .returned (.error err)
            | .ok rows => .returned (.ok (scrapeRows rows))) := by
  obtain ⟨tok, htok⟩ := findString_returns tablibTokenPattern text
  obtain ⟨acc, hacc⟩ := findString_returns pat text
  refine ⟨tok, acc, htok, hacc, ?_, ?_⟩
  · cases h1 : net.reply (net.sent.length + 1) with
    | error msg => simp [GetTransactions, request, h0, htok, hp, hacc, h1]
    | ok res =>
      cases hd : doc res with
      | error err => simp [GetTransactions, request, h0, htok, hp, hacc, h1, hd]
      | ok rows => simp [GetTransactions, request, h0, htok, hp, hacc, h1, hd]
  · cases h1 : net.reply (net.sent.length + 1) with
    | error msg => simp [GetTransactions, request, h0, htok, hp, hacc, h1]
    | ok res =>
      cases hd : doc res with
      | error err => simp [GetTransactions, request, h0, htok, hp, hacc, h1, hd]
      | ok rows => simp [GetTransactions, request, h0, htok, hp, hacc, h1, hd]

/-- A list that `GetTransactions` returns is what the loop makes of the rows
of the parsed body. -/
theorem GetTransactions_ok_rows (doc : GoString → Except GoError (List Row)) (k : KBank)
    (net : Net) (out : List Transaction)
    (h : (GetTransactions doc k net).1 = .returned (.ok out)) :
    ∃ res rows, doc res = .ok rows ∧ out = scrapeRows rows := by
  cases h0 : net.reply net.sent.length with
  | error msg =>
    rw [(GetTransactions_fail0 doc k net msg h0).1] at h
    cases h
  | ok text =>
    cases hp : accountIDPattern k.accountNo with
    | panicked p =>
      obtain ⟨tok, htok⟩ := findString_returns tablibTokenPattern text
      simp [GetTransactions, request, h0, htok, hp] at h
    | notModelled =>
      obtain ⟨tok, htok⟩ := findString_returns tablibTokenPattern text
      simp [GetTransactions, request, h0, htok, hp] at h
    | returned pat =>
      obtain ⟨tok, acc, _, _, _, hres⟩ := GetTransactions_ok0 doc k net text pat h0 hp
      rw [hres] at h
      cases h1 : net.reply (net.sent.length + 1) with
      | error msg => simp only [h1] at h; cases h
      | ok res =>
        simp only [h1] at h
        cases hd : doc res with
        | error err => simp only [hd] at h; cases h
        | ok rows =>
          simp only [hd, Outcome.returned.injEq, Except.ok.injEq] at h
          exact ⟨res, rows, hd, h.symm⟩

/-! ## `ParseFloat`: the value that comes with an error -/

theorem assembleFloat64_overflow (neg : Bool) (m : Nat) (e : Int)
    (h : (assembleFloat64 neg m e).2 = true) :
    (assembleFloat64 neg m e).1 = ⟨signBit neg + 2047 * 2 ^ 52⟩ := by
  unfold assembleFloat64 at h ⊢
  split
  · rfl
  · rename_i h1
    rw [if_neg h1] at h
    split at h <;> simp at h

theorem roundFloat64_overflow (neg : Bool) (num den : Nat)
    (h : (roundFloat64 neg num den).2 = true) :
    (roundFloat64 neg num den).1 = ⟨signBit neg + 2047 * 2 ^ 52⟩ := by
  unfold roundFloat64 at h ⊢
  split
  · rename_i h1
    rw [if_pos h1] at h
    exact assembleFloat64_overflow _ _ _ h
  · rename_i h1
    rw [if_neg h1] at h
    exact assembleFloat64_overflow _ _ _ h

theorem toFloat64_overflow (t : FloatText) (h : t.toFloat64.2 = true) :
    t.toFloat64.1 = ⟨signBit t.neg + 2047 * 2 ^ 52⟩ := by
  unfold FloatText.toFloat64 at h ⊢
  split
  · rename_i h1; rw [if_pos h1] at h; simp at h
  · rename_i h1
    rw [if_neg h1] at h
    split
    · rename_i h2
      rw [if_pos h2] at h
      split
      · rfl
      · rename_i h3
        rw [if_neg h3] at h
        split
        · rename_i h4; rw [if_pos h4] at h; simp at h
        · rename_i h4
          rw [if_neg h4] at h
          split
          · rename_i h5; rw [if_pos h5] at h; exact roundFloat64_overflow _ _ _ h
          · rename_i h5; rw [if_neg h5] at h; exact roundFloat64_overflow _ _ _ h
    · rename_i h2
      rw [if_neg h2] at h
      split
      · rfl
      · rename_i h3
        rw [if_neg h3] at h
        split
        · rename_i h4; rw [if_pos h4] at h; simp at h
        · rename_i h4
          rw [if_neg h4] at h
          split
          · rename_i h5; rw [if_pos h5] at h; exact roundFloat64_overflow _ _ _ h
          · rename_i h5; rw [if_neg h5] at h; exact roundFloat64_overflow _ _ _ h

/-- With `ErrSyntax`, `ParseFloat` returns `0`. -/
theorem ParseFloat_syntax (s : GoString) (h : (ParseFloat s).2 = some .ErrSyntax) :
    (ParseFloat s).1 = ⟨0⟩ := by
  unfold ParseFloat at h ⊢
  cases hs : special s with
  | some fr =>
    obtain ⟨f, rest⟩ := fr
    simp only [hs] at h ⊢
    by_cases hr : rest = []
    · simp [hr] at h
    · simp [hr]
  | none =>
    simp only [hs] at h ⊢
    cases hrf : readFloat s with
    | none => rfl
    | some t =>
      simp only [hrf] at h ⊢
      by_cases hr : t.rest ≠ []
      · simp [hr]
      · by_cases ho : t.toFloat64.2 = true
        · simp [hr, ho] at h
        · simp [hr, ho] at h

/-- With `ErrRange`, `ParseFloat` returns an infinity. -/
theorem ParseFloat_range (s : GoString) (h : (ParseFloat s).2 = some .ErrRange) :
    (ParseFloat s).1 = ⟨0x7FF0000000000000⟩ ∨ (ParseFloat s).1 = ⟨0xFFF0000000000000⟩ := by
  have hsign : ∀ neg : Bool, (⟨signBit neg + 2047 * 2 ^ 52⟩ : Float64) = ⟨0x7FF0000000000000⟩ ∨
      (⟨signBit neg + 2047 * 2 ^ 52⟩ : Float64) = ⟨0xFFF0000000000000⟩ := by
    intro neg; cases neg
    · left; decide
    · right; decide
  unfold ParseFloat at h ⊢
  cases hs : special s with
  | some fr =>
    obtain ⟨f, rest⟩ := fr
    simp only [hs] at h ⊢
    by_cases hr : rest = []
    · simp [hr] at h
    · simp [hr] at h
  | none =>
    simp only [hs] at h ⊢
    cases hrf : readFloat s with
    | none => simp [hrf] at h
    | some t =>
      simp only [hrf] at h ⊢
      by_cases hr : t.rest ≠ []
      · simp [hr] at h
      · by_cases ho : t.toFloat64.2 = true
        · rw [if_neg hr, if_pos ho]
          show t.toFloat64.1 = _ ∨ t.toFloat64.1 = _
          rw [toFloat64_overflow t ho]
          exact hsign t.neg
        · simp [hr, ho] at h

/-! ## C1 -/

/-- C1: `CheckSession` returns a plain boolean for every network: it is `true`
exactly when the request it issues (one POST to the session-check endpoint)
succeeds and the body contains the literal
`<response><result>true</result></response>` as a substring; for a transport
failure and for every other body it is `false`. -/
theorem CheckSession_true_iff (net : Net) :
    ((CheckSession net).1 = true ↔
        ∃ body, net.reply net.sent.length = .ok body ∧
          "<response><result>true</result></response>".toList <:+: body) ∧
    ((CheckSession net).1 = false ↔
        ((∃ msg, net.reply net.sent.length = .error msg) ∨
          ∃ body, net.reply net.sent.length = .ok body ∧
            ¬ "<response><result>true</result></response>".toList <:+: body)) ∧
    (CheckSession net).2.sent = net.sent ++
        [⟨"POST".toList,
          "https://online.kasikornbankgroup.com/K-Online/checkSession.jsp".toList, []⟩] := by
  unfold CheckSession request
  cases hr : net.reply net.sent.length with
  | error msg =>
    refine ⟨?_, ?_, ?_⟩
    · simp
    · simp
    · simp [OnlineEndPoint]
  | ok body =>
    have hm := stringsIndex_ne_iff body sessionMarker
    refine ⟨?_, ?_, ?_⟩
    · simp only [decide_eq_true_eq, hm]
      constructor
      · intro h; exact ⟨body, rfl, h⟩
      · rintro ⟨b, hb, h⟩
        cases hb; exact h
    · simp only [decide_eq_false_iff_not, hm]
      constructor
      · intro h; exact Or.inr ⟨body, rfl, h⟩
      · rintro (⟨m, hm2⟩ | ⟨b, hb, h⟩)
        · cases hm2
        · cases hb; exact h
    · simp [OnlineEndPoint]

/-! ## C2: the login handshake -/

/-- C2 (amended): `Login` fails with an error whenever a request of the
handshake has a transport error or the session-check body lacks the success
marker: at the first such step it returns a non-nil error and issues no further
request. A login page without a `tokenId` field and a redirect page without a
`txtParam` field are not failures: when no step fails in that sense, whatever
the pages hold, `Login` issues all five requests and returns nil. -/
theorem Login_aborts_at_first_failure (k : KBank) (net : Net) :
    (∀ i, i < 5 → LoginStepFails net i → (∀ j, j < i → ¬ LoginStepFails net j) →
      (∃ err, (Login k net).1 = .returned (some err)) ∧
        (Login k net).2.sent.length = net.sent.length + (i + 1)) ∧
    ((∀ j, j < 5 → ¬ LoginStepFails net j) →
      (Login k net).1 = .returned none ∧
        (Login k net).2.sent.length = net.sent.length + 5) := by
  constructor
  · intro i hi hf hmin
    have hok : ∀ j, j < i → ∃ body, net.reply (net.sent.length + j) = .ok body ∧
        (j = 2 → sessionMarker <:+: body) :=
      fun j hj => not_loginStepFails net j (hmin j hj)
    have herr : i ≠ 2 → ∃ msg, net.reply (net.sent.length + i) = .error msg := by
      intro hne
      rcases hf with h | ⟨h, _⟩
      · exact h
      · exact absurd h hne
    interval_cases i
    · obtain ⟨msg, hm⟩ := herr (by decide)
      have := Login_fail0 k net msg (by simpa using hm)
      exact ⟨⟨_, this.1⟩, this.2⟩
    · obtain ⟨msg, hm⟩ := herr (by decide)
      obtain ⟨b0, h0, _⟩ := hok 0 (by decide)
      have := Login_fail1 k net b0 msg (by simpa using h0) hm
      exact ⟨⟨_, this.1⟩, this.2⟩
    · obtain ⟨b0, h0, _⟩ := hok 0 (by decide)
      obtain ⟨b1, h1, _⟩ := hok 1 (by decide)
      have h2 : (∃ msg, net.reply (net.sent.length + 2) = .error msg) ∨
          ∃ body, net.reply (net.sent.length + 2) = .ok body ∧ ¬ sessionMarker <:+: body := by
        rcases hf with h | ⟨_, h⟩
        · exact Or.inl h
        · exact Or.inr h
      have := Login_fail2 k net b0 b1 (by simpa using h0) h1 h2
      exact ⟨⟨_, this.1⟩, this.2⟩
    · obtain ⟨msg, hm⟩ := herr (by decide)
      obtain ⟨b0, h0, _⟩ := hok 0 (by decide)
      obtain ⟨b1, h1, _⟩ := hok 1 (by decide)
      obtain ⟨b2, h2, hm2⟩ := hok 2 (by decide)
      have := Login_fail3 k net b0 b1 b2 msg (by simpa using h0) h1 h2 (hm2 rfl) hm
      exact ⟨⟨_, this.1⟩, this.2⟩
    · obtain ⟨msg, hm⟩ := herr (by decide)
      obtain ⟨b0, h0, _⟩ := hok 0 (by decide)
      obtain ⟨b1, h1, _⟩ := hok 1 (by decide)
      obtain ⟨b2, h2, hm2⟩ := hok 2 (by decide)
      obtain ⟨b3, h3, _⟩ := hok 3 (by decide)
      have := Login_fail4 k net b0 b1 b2 b3 msg (by simpa using h0) h1 h2 (hm2 rfl) h3 hm
      exact ⟨⟨_, this.1⟩, this.2⟩
  · intro hall
    obtain ⟨b0, h0, _⟩ := not_loginStepFails net 0 (hall 0 (by decide))
    obtain ⟨b1, h1, _⟩ := not_loginStepFails net 1 (hall 1 (by decide))
    obtain ⟨b2, h2, hm2⟩ := not_loginStepFails net 2 (hall 2 (by decide))
    obtain ⟨b3, h3, _⟩ := not_loginStepFails net 3 (hall 3 (by decide))
    obtain ⟨b4, h4, _⟩ := not_loginStepFails net 4 (hall 4 (by decide))
    exact Login_success k net b0 b1 b2 b3 b4 (by simpa using h0) h1 h2 (hm2 rfl) h3 h4

/-- C2, at a concrete network whose pages are all empty: the session check
(step 2) is the first step that fails, `Login` returns an error and has issued
three requests. -/
theorem Login_aborts_at_first_failure_witness :
    (∃ err, (Login ⟨"u".toList, "p".toList, "1234567890".toList⟩
        ⟨fun _ => .ok [], []⟩).1 = .returned (some err)) ∧
      (Login ⟨"u".toList, "p".toList, "1234567890".toList⟩
        ⟨fun _ => .ok [], []⟩).2.sent.length = 0 + (2 + 1) := by
  have hnil : ¬ "<response><result>true</result></response>".toList <:+: ([] : GoString) := by
    intro h
    have := List.infix_nil.mp h
    exact absurd this (by decide)
  refine (Login_aborts_at_first_failure ⟨"u".toList, "p".toList, "1234567890".toList⟩
    ⟨fun _ => .ok [], []⟩).1 2 (by decide) (Or.inr ⟨rfl, [], rfl, hnil⟩) ?_
  intro j hj
  rintro (⟨msg, hm⟩ | ⟨h2, _⟩)
  · cases hm
  · omega

/-- C2 as stated fails: the login page and the redirect page below are empty,
so they hold no `tokenId` and no `txtParam` hidden field, and every request
succeeds with the session check answering the success marker; `Login` returns
nil after all five requests, posting the empty string for both tokens. -/
theorem Login_missing_tokens_no_error :
    tokenIDPattern.FindStringSubmatch [] = [] ∧
    txtParamPattern.FindStringSubmatch [] = [] ∧
    (Login ⟨"u".toList, "p".toList, "1234567890".toList⟩
        ⟨fun n => if n = 2 then .ok "<response><result>true</result></response>".toList
          else .ok [], []⟩).1 = .returned none ∧
    ((Login ⟨"u".toList, "p".toList, "1234567890".toList⟩
        ⟨fun n => if n = 2 then .ok "<response><result>true</result></response>".toList
          else .ok [], []⟩).2.sent.map (fun r => r.form.lookup "tokenId".toList)) =
      [none, some [], none, none, none] ∧
    ((Login ⟨"u".toList, "p".toList, "1234567890".toList⟩
        ⟨fun n => if n = 2 then .ok "<response><result>true</result></response>".toList
          else .ok [], []⟩).2.sent.map (fun r => r.form.lookup "txtParam".toList)) =
      [none, none, none, none, some []] := by
  decide

/-! ## C3 and C10: the account row -/

/-- C3 (amended): a missing account row is not a failure of `GetTransactions`.
For every account number of ten digits and every statement-inquiry response
that holds no `<option value="digits">` element whose label is the account
number in the portal grouping, `GetTransactions` submits the follow-up POST with
the empty string as `acctId`, and what it returns is decided by the answer to
that POST alone: its transport error, the parser's error, or the rows. -/
theorem GetTransactions_missing_account (doc : GoString → Except GoError (List Row))
    (k : KBank) (net : Net) (text : GoString)
    (hlen : k.accountNo.length = 10) (hd : ∀ c ∈ k.accountNo, isDigit c = true)
    (h0 : net.reply net.sent.length = .ok text)
    (hno : ¬ ∃ a v b, v ≠ [] ∧ (∀ c ∈ v, isDigit c = true) ∧
      text = a ++ "<option value=\"".toList ++ v ++
        ("\">".toList ++ k.accountNo.take 3 ++ "-".toList ++ (k.accountNo.drop 3).take 1 ++
          "-".toList ++ (k.accountNo.drop 4).take 5 ++ "-".toList ++
          (k.accountNo.drop 9).take 1 ++ " </option>".toList) ++ b) :
    (∃ tok, (GetTransactions doc k net).2.sent = net.sent ++
      [ ⟨"GET".toList,
          ("https://ebank.kasikornbankgroup.com" ++
            "/retail/cashmanagement/TodayAccountStatementInquiry.do").toList, []⟩,
        ⟨"POST".toList,
          ("https://ebank.kasikornbankgroup.com" ++
            "/retail/cashmanagement/TodayAccountStatementInquiry.do").toList,
          [ ("org.apache.struts.taglib.html.TOKEN".toList, tok),
            ("captcha_check".toList, "null".toList),
            ("acctId".toList, []),
            ("action".toList, "detail".toList),
            ("st".toList, "0".toList) ]⟩ ]) ∧
    (GetTransactions doc k net).1 =
      (match net.reply (net.sent.length + 1) with
        | .error msg => .returned (.error (.transport msg))
        | .ok res =>
          match doc res with
          | .error err => .returned (.error err)
          | .ok rows => .returned (.ok (scrapeRows rows))) := by
  have hp := accountIDPattern_digits k.accountNo hlen hd
  obtain ⟨tok, acc, _, hacc, hsent, hres⟩ := GetTransactions_ok0 doc k net text _ h0 hp
  obtain ⟨v, hv, hl, _⟩ := extract_leftmostField
    { pre := "<option value=\"".toList
      cls := isDigit
      suf := "\">".toList ++ k.accountNo.take 3 ++ "-".toList ++ (k.accountNo.drop 3).take 1 ++
        "-".toList ++ (k.accountNo.drop 4).take 5 ++ "-".toList ++
        (k.accountNo.drop 9).take 1 ++ " </option>".toList } '"'
    (">".toList ++ k.accountNo.take 3 ++ "-".toList ++ (k.accountNo.drop 3).take 1 ++
      "-".toList ++ (k.accountNo.drop 4).take 5 ++ "-".toList ++
      (k.accountNo.drop 9).take 1 ++ " </option>".toList) rfl
    (show isDigit '"' = false by decide) text
  rw [hacc] at hv
  have hacc2 : acc = v := by
    simpa using hv
  have hv0 : v = [] := by
    by_contra hne
    exact hno (hl.mp hne)
  rw [hacc2, hv0] at hsent
  exact ⟨⟨tok, hsent⟩, hres⟩

/-- C3, at a concrete input: the statement-inquiry page is empty, the POST
answers an empty body in which the parser finds no row; `GetTransactions`
posts the empty `acctId` and returns the empty list. -/
theorem GetTransactions_missing_account_witness :
    (∃ tok, (GetTransactions (fun _ => .ok []) ⟨"u".toList, "p".toList, "1234567890".toList⟩
        ⟨fun _ => .ok [], []⟩).2.sent = [] ++
      [ ⟨"GET".toList,
          ("https://ebank.kasikornbankgroup.com" ++
            "/retail/cashmanagement/TodayAccountStatementInquiry.do").toList, []⟩,
        ⟨"POST".toList,
          ("https://ebank.kasikornbankgroup.com" ++
            "/retail/cashmanagement/TodayAccountStatementInquiry.do").toList,
          [ ("org.apache.struts.taglib.html.TOKEN".toList, tok),
            ("captcha_check".toList, "null".toList),
            ("acctId".toList, []),
            ("action".toList, "detail".toList),
            ("st".toList, "0".toList) ]⟩ ]) ∧
    (GetTransactions (fun _ => .ok []) ⟨"u".toList, "p".toList, "1234567890".toList⟩
        ⟨fun _ => .ok [], []⟩).1 = .returned (.ok (scrapeRows [])) :=
  GetTransactions_missing_account (fun _ => .ok [])
    ⟨"u".toList, "p".toList, "1234567890".toList⟩ ⟨fun _ => .ok [], []⟩ [] (by decide)
    (by decide) rfl
    (by
      rintro ⟨a, v, b, hv, _, h⟩
      have hlen := congrArg List.length h
      simp only [List.length_append, List.length_nil] at hlen
      have hpos : 0 < "<option value=\"".toList.length := by decide
      omega)

/-- C3 as stated fails: with the account number `1234567890` and an empty
statement-inquiry page, which holds no option at all, `GetTransactions` returns
no error (it returns the empty list) and has submitted the follow-up POST, with
an empty `acctId`. -/
theorem GetTransactions_missing_account_no_error :
    (GetTransactions (fun _ => .ok []) ⟨"u".toList, "p".toList, "1234567890".toList⟩
        ⟨fun _ => .ok [], []⟩).1 = .returned (.ok []) ∧
    ((GetTransactions (fun _ => .ok []) ⟨"u".toList, "p".toList, "1234567890".toList⟩
        ⟨fun _ => .ok [], []⟩).2.sent.map
          (fun r => (r.method, r.form.lookup "acctId".toList))) =
      [("GET".toList, none), ("POST".toList, some [])] :=
  ⟨rfl, by decide⟩

/-! ## C4 to C7: the rows -/

/-- C4 (amended): the layout has a two-digit year. For every row whose first
cell yields exactly the six digit groups 09, 10, 23, 14, 30, 00, the row parsing
produces a Transaction whose Time is 2023-10-09 14:30:00 in Asia/Bangkok (the
groups are read as day, month, year, hour, minute, second); a row whose first
cell yields the groups 09, 10, 2023, 14, 30, 00 produces no Transaction. -/
theorem rowTransaction_two_digit_year (tr : Row) :
    (maximalDigitGroups tr.td1 =
        ["09".toList, "10".toList, "23".toList, "14".toList, "30".toList, "00".toList] →
      ∃ tx, rowTransaction tr = some tx ∧
        tx.Time = ⟨2023, 10, 9, 14, 30, 0, 0, "Asia/Bangkok".toList⟩) ∧
    (maximalDigitGroups tr.td1 =
        ["09".toList, "10".toList, "2023".toList, "14".toList, "30".toList, "00".toList] →
      rowTransaction tr = none) := by
  constructor
  · intro h
    have ht := rowTime_of_groups tr _ _ _ _ _ _ h
    have hp : ParseInLocation ("09".toList ++ "/".toList ++ "10".toList ++ "/".toList ++
        "23".toList ++ " ".toList ++ "14".toList ++ ":".toList ++ "30".toList ++ ":".toList ++
        "00".toList) "Asia/Bangkok".toList =
        some ⟨2023, 10, 9, 14, 30, 0, 0, "Asia/Bangkok".toList⟩ := by decide
    rw [hp] at ht
    unfold rowTransaction
    rw [ht]
    exact ⟨_, rfl, rfl⟩
  · intro h
    have ht := rowTime_of_groups tr _ _ _ _ _ _ h
    have hp : ParseInLocation ("09".toList ++ "/".toList ++ "10".toList ++ "/".toList ++
        "2023".toList ++ " ".toList ++ "14".toList ++ ":".toList ++ "30".toList ++
        ":".toList ++ "00".toList) "Asia/Bangkok".toList = none := by decide
    rw [hp] at ht
    unfold rowTransaction
    rw [ht]


/-- C4, at a concrete row: the first cell `09/10/23 14:30:00` yields the groups
09, 10, 23, 14, 30, 00 and the row gives the time 2023-10-09 14:30:00. -/
theorem rowTransaction_two_digit_year_witness :
    ∃ tx, rowTransaction ⟨"09/10/23 14:30:00".toList, "1,234.56".toList,
        "123-4-56789-0".toList, "TRANSFER".toList⟩ = some tx ∧
      tx.Time = ⟨2023, 10, 9, 14, 30, 0, 0, "Asia/Bangkok".toList⟩ :=
  (rowTransaction_two_digit_year ⟨"09/10/23 14:30:00".toList, "1,234.56".toList,
    "123-4-56789-0".toList, "TRANSFER".toList⟩).1 (by decide)

/-- C4 as stated fails: the first cell `09 10 2023 14 30 00` yields exactly the
six groups 09, 10, 2023, 14, 30, 00, the composed text `09/10/2023 14:30:00`
does not parse with the layout `02/01/06 15:04:05`, and the row produces no
Transaction. -/
theorem rowTransaction_four_digit_year_skipped :
    maximalDigitGroups "09 10 2023 14 30 00".toList =
      ["09".toList, "10".toList, "2023".toList, "14".toList, "30".toList, "00".toList] ∧
    ParseInLocation "09/10/2023 14:30:00".toList "Asia/Bangkok".toList = none ∧
    rowTransaction ⟨"09 10 2023 14 30 00".toList, "1,234.56".toList,
      "123-4-56789-0".toList, "TRANSFER".toList⟩ = none := by
  decide

/-! ## C5: the rows in table order -/

/-- C5: the list the loop returns is the in-order concatenation of the per-row
results, without re-sorting; each row contributes at most one Transaction, and
one only if its first cell yields exactly six maximal digit groups; a row with
fewer or more groups contributes nothing, and with or without it the other rows
give the same Transactions. Every list `GetTransactions` returns is made so from
the rows of the parsed body. -/
theorem scrapeRows_in_table_order (rows : List Row) :
    scrapeRows rows = rows.flatMap (fun tr => (rowTransaction tr).toList) ∧
    (∀ tr, (rowTransaction tr).toList.length ≤ 1) ∧
    (∀ tr tx, rowTransaction tr = some tx → (maximalDigitGroups tr.td1).length = 6) ∧
    (∀ tr, (maximalDigitGroups tr.td1).length ≠ 6 →
      rowTransaction tr = none ∧
        ∀ before after, scrapeRows (before ++ tr :: after) = scrapeRows (before ++ after)) ∧
    (∀ (doc : GoString → Except GoError (List Row)) (k : KBank) (net : Net)
        (out : List Transaction),
      (GetTransactions doc k net).1 = .returned (.ok out) →
        ∃ res parsed, doc res = .ok parsed ∧ out = scrapeRows parsed) := by
  have hnone : ∀ tr, (maximalDigitGroups tr.td1).length ≠ 6 → rowTransaction tr = none := by
    intro tr h
    unfold rowTransaction
    rw [rowTime_none_of_groups tr h]
  refine ⟨?_, ?_, ?_, ?_, ?_⟩
  · rw [scrapeRows_eq_filterMap]
    induction rows with
    | nil => rfl
    | cons r rs ih =>
      rw [List.filterMap_cons, List.flatMap_cons, ← ih]
      cases rowTransaction r <;> rfl
  · intro tr
    cases rowTransaction tr <;> simp
  · intro tr tx h
    unfold rowTransaction at h
    cases ht : rowTime tr with
    | none => rw [ht] at h; cases h
    | some t => exact rowTime_some_groups tr t ht
  · intro tr h
    refine ⟨hnone tr h, ?_⟩
    intro before after
    rw [scrapeRows_eq_filterMap, scrapeRows_eq_filterMap, List.filterMap_append,
      List.filterMap_append, List.filterMap_cons, hnone tr h]
  · intro doc k net out h
    exact GetTransactions_ok_rows doc k net out h

/-- C5, at a concrete table: between two rows with a timestamp stands a row
whose first cell has five digit groups; it contributes nothing and the other
two rows give the same Transactions as without it. -/
theorem scrapeRows_in_table_order_witness :
    (maximalDigitGroups "09/10/23 14:30".toList).length ≠ 6 ∧
    scrapeRows
        ([⟨"09/10/23 14:30:00".toList, "1.00".toList, "1-2".toList, "A".toList⟩] ++
          ⟨"09/10/23 14:30".toList, "2.00".toList, "3-4".toList, "B".toList⟩ ::
            [⟨"08/10/23 09:05:07".toList, "3.00".toList, "5-6".toList, "C".toList⟩]) =
      scrapeRows
        ([⟨"09/10/23 14:30:00".toList, "1.00".toList, "1-2".toList, "A".toList⟩] ++
          [⟨"08/10/23 09:05:07".toList, "3.00".toList, "5-6".toList, "C".toList⟩]) :=
  ⟨by decide,
    ((scrapeRows_in_table_order []).2.2.2.1
      ⟨"09/10/23 14:30".toList, "2.00".toList, "3-4".toList, "B".toList⟩ (by decide)).2 _ _⟩

/-! ## C6: the amount -/

/-- C6 (amended): for every row that passes the timestamp checks the row is
included whatever its amount cell holds. Its Amount is what `strconv.ParseFloat`
returns for the cell text with every comma removed: the nearest `float64` when
the text is a number (`1,234.56` gives the `float64` nearest to 123456/100,
which has the bits `0x40934A3D70A3D70A`), zero
when the text is not well-formed as a number, and an infinity when the text is
a number beyond the range of `float64`, which `ParseFloat` reports as an error
as well. -/
theorem rowTransaction_amount (tr : Row) (t : Time) (ht : rowTime tr = some t) :
    ∃ tx, rowTransaction tr = some tx ∧ tx.Time = t ∧
      tx.Amount = (ParseFloat (tr.td5.filter (fun c => c != ','))).1 ∧
      ((ParseFloat (tr.td5.filter (fun c => c != ','))).2 = some .ErrSyntax →
        tx.Amount = ⟨0⟩) ∧
      ((ParseFloat (tr.td5.filter (fun c => c != ','))).2 = some .ErrRange →
        tx.Amount = ⟨0x7FF0000000000000⟩ ∨ tx.Amount = ⟨0xFFF0000000000000⟩) ∧
      (tr.td5 = "1,234.56".toList →
        tx.Amount = (roundFloat64 false 123456 100).1 ∧ tx.Amount = ⟨0x40934A3D70A3D70A⟩) := by
  have hr : stringsReplaceAll tr.td5 ",".toList [] = tr.td5.filter (fun c => c != ',') :=
    stringsReplaceAll_single ',' tr.td5
  refine ⟨_, by unfold rowTransaction; rw [ht], rfl, ?_, ?_, ?_, ?_⟩
  · simp only [hr]
  · intro h
    simp only [hr]
    exact ParseFloat_syntax _ h
  · intro h
    simp only [hr]
    exact ParseFloat_range _ h
  · intro h
    simp only [h]
    exact ⟨by decide, by decide⟩

/-- C6, at a concrete row with the amount cell `1,234.56`. -/
theorem rowTransaction_amount_witness :
    rowTime ⟨"09/10/23 14:30:00".toList, "1,234.56".toList,
        "123-4-56789-0".toList, "TRANSFER".toList⟩ =
      some ⟨2023, 10, 9, 14, 30, 0, 0, "Asia/Bangkok".toList⟩ ∧
    ∃ tx, rowTransaction ⟨"09/10/23 14:30:00".toList, "1,234.56".toList,
        "123-4-56789-0".toList, "TRANSFER".toList⟩ = some tx ∧
      tx.Time = ⟨2023, 10, 9, 14, 30, 0, 0, "Asia/Bangkok".toList⟩ ∧
      tx.Amount = (ParseFloat ("1,234.56".toList.filter (fun c => c != ','))).1 ∧
      ((ParseFloat ("1,234.56".toList.filter (fun c => c != ','))).2 = some .ErrSyntax →
        tx.Amount = ⟨0⟩) ∧
      ((ParseFloat ("1,234.56".toList.filter (fun c => c != ','))).2 = some .ErrRange →
        tx.Amount = ⟨0x7FF0000000000000⟩ ∨ tx.Amount = ⟨0xFFF0000000000000⟩) ∧
      ("1,234.56".toList = "1,234.56".toList →
        tx.Amount = (roundFloat64 false 123456 100).1 ∧ tx.Amount = ⟨0x40934A3D70A3D70A⟩) :=
  ⟨by decide,
    rowTransaction_amount ⟨"09/10/23 14:30:00".toList, "1,234.56".toList,
      "123-4-56789-0".toList, "TRANSFER".toList⟩
      ⟨2023, 10, 9, 14, 30, 0, 0, "Asia/Bangkok".toList⟩ (by decide)⟩

/-- C6 as stated fails: the amount cell `1e999` fails to parse (`ParseFloat`
returns the error `ErrRange`), the row passes the timestamp checks and is
included, and its Amount is positive infinity, not zero. -/
theorem rowTransaction_amount_out_of_range :
    (ParseFloat (stringsReplaceAll "1e999".toList ",".toList [])).2 = some .ErrRange ∧
    (rowTransaction ⟨"09/10/23 14:30:00".toList, "1e999".toList,
        "123-4-56789-0".toList, "TRANSFER".toList⟩).map (fun tx => tx.Amount) =
      some ⟨0x7FF0000000000000⟩ ∧
    (⟨0x7FF0000000000000⟩ : Float64) ≠ ⟨0⟩ := by
  decide

/-! ## C7: the counterparty account -/

/-- C7 (amended): for every counterparty-account cell text, the Transaction's
FromAccountNo is that text with every hyphen removed and all other characters
kept in their original order, so it contains no hyphen; the cell
`123-4-56789-0` normalizes to `1234567890`. -/
theorem rowTransaction_fromAccountNo (tr : Row) (tx : Transaction)
    (h : rowTransaction tr = some tx) :
    tx.FromAccountNo = tr.td6.filter (fun c => c != '-') ∧
    '-' ∉ tx.FromAccountNo ∧
    (tr.td6 = "123-4-56789-0".toList → tx.FromAccountNo = "1234567890".toList) := by
  have hf : tx.FromAccountNo = tr.td6.filter (fun c => c != '-') := by
    unfold rowTransaction at h
    cases ht : rowTime tr with
    | none => rw [ht] at h; cases h
    | some t =>
      rw [ht] at h
      simp only [Option.some.injEq] at h
      rw [← h]
      exact stringsReplaceAll_single '-' tr.td6
  refine ⟨hf, ?_, ?_⟩
  · rw [hf]
    intro hmem
    have := (List.mem_filter.mp hmem).2
    simp at this
  · intro h6
    rw [hf, h6]
    decide

/-- C7, at a concrete row with the counterparty cell `123-4-56789-0`. -/
theorem rowTransaction_fromAccountNo_witness :
    rowTransaction ⟨"09/10/23 14:30:00".toList, "1,234.56".toList,
        "123-4-56789-0".toList, "TRANSFER".toList⟩ =
      some ⟨⟨2023, 10, 9, 14, 30, 0, 0, "Asia/Bangkok".toList⟩, ⟨0x40934A3D70A3D70A⟩,
        "1234567890".toList, "TRANSFER".toList⟩ ∧
    (⟨⟨2023, 10, 9, 14, 30, 0, 0, "Asia/Bangkok".toList⟩, ⟨0x40934A3D70A3D70A⟩,
        "1234567890".toList, "TRANSFER".toList⟩ : Transaction).FromAccountNo =
      "123-4-56789-0".toList.filter (fun c => c != '-') ∧
    '-' ∉ (⟨⟨2023, 10, 9, 14, 30, 0, 0, "Asia/Bangkok".toList⟩, ⟨0x40934A3D70A3D70A⟩,
        "1234567890".toList, "TRANSFER".toList⟩ : Transaction).FromAccountNo ∧
    ("123-4-56789-0".toList = "123-4-56789-0".toList →
      (⟨⟨2023, 10, 9, 14, 30, 0, 0, "Asia/Bangkok".toList⟩, ⟨0x40934A3D70A3D70A⟩,
        "1234567890".toList, "TRANSFER".toList⟩ : Transaction).FromAccountNo =
        "1234567890".toList) :=
  ⟨by decide,
    rowTransaction_fromAccountNo
      ⟨"09/10/23 14:30:00".toList, "1,234.56".toList, "123-4-56789-0".toList,
        "TRANSFER".toList⟩
      ⟨⟨2023, 10, 9, 14, 30, 0, 0, "Asia/Bangkok".toList⟩, ⟨0x40934A3D70A3D70A⟩,
        "1234567890".toList, "TRANSFER".toList⟩ (by decide)⟩

/-- C7 as stated fails in its example: the cell `123-4-56789-0` normalizes to
`1234567890`, which is not the spec's `12345678 90`. -/
theorem rowTransaction_fromAccountNo_example :
    (rowTransaction ⟨"09/10/23 14:30:00".toList, "1,234.56".toList,
        "123-4-56789-0".toList, "TRANSFER".toList⟩).map (fun tx => tx.FromAccountNo) =
      some "1234567890".toList ∧
    "1234567890".toList ≠ "12345678 90".toList := by
  decide

/-! ## C8 and C9: token extraction -/

/-- C8: token extraction is a total function of the HTML text: for every text
and each of the three token patterns, `findString` at index 1 returns a value
(it does not index out of range), and when the pattern's anchor fragment (the
literal hidden-field markup before the value) does not occur in the text the
value is the empty string. -/
theorem token_extraction_total (text : GoString) :
    (∃ v, findString (tokenIDPattern.FindStringSubmatch text) 1 = .returned v ∧
      (¬ "<input type=\"hidden\" name=\"tokenId\" id=\"tokenId\" value=\"".toList <:+: text →
        v = [])) ∧
    (∃ v, findString (txtParamPattern.FindStringSubmatch text) 1 = .returned v ∧
      (¬ " <input type=\"hidden\" name=\"txtParam\" value=\"".toList <:+: text → v = [])) ∧
    (∃ v, findString (tablibTokenPattern.FindStringSubmatch text) 1 = .returned v ∧
      (¬ "<input type=\"hidden\" name=\"org.apache.struts.taglib.html.TOKEN\" value=\"".toList
          <:+: text → v = [])) := by
  have key : ∀ (p : Pattern) (q : Char) (qs : GoString), p.suf = q :: qs → p.cls q = false →
      ∃ v, findString (p.FindStringSubmatch text) 1 = .returned v ∧
        (¬ p.pre <:+: text → v = []) := by
    intro p q qs hsuf hq
    obtain ⟨v, hv, hl, _⟩ := extract_leftmostField p q qs hsuf hq text
    refine ⟨v, hv, ?_⟩
    intro hno
    by_contra hne
    obtain ⟨a, w, b, _, _, hw⟩ := hl.mp hne
    apply hno
    exact ⟨a, w ++ p.suf ++ b, by rw [hw]; simp [List.append_assoc]⟩
  exact ⟨key tokenIDPattern '"' "/>".toList rfl (by decide),
    key txtParamPattern '"' " />".toList rfl (by decide),
    key tablibTokenPattern '"' ">".toList rfl (by decide)⟩

/-- C9: for every HTML text and each token kind, the extracted value is
non-empty exactly when the text holds the kind's full literal markup around a
non-empty value of the kind's character class (digits for `tokenId`, lowercase
letters and digits for `txtParam`, digits and dots for the struts token); a
non-empty value consists of that class only, stands in the text between the
literal prefix and the literal suffix, and belongs to the leftmost such
occurrence. -/
theorem token_extraction_leftmost (text : GoString) :
    (∃ v, findString (tokenIDPattern.FindStringSubmatch text) 1 = .returned v ∧
      LeftmostField "<input type=\"hidden\" name=\"tokenId\" id=\"tokenId\" value=\"".toList
        (fun c => decide ('0' ≤ c) && decide (c ≤ '9')) "\"/>".toList text v) ∧
    (∃ v, findString (txtParamPattern.FindStringSubmatch text) 1 = .returned v ∧
      LeftmostField " <input type=\"hidden\" name=\"txtParam\" value=\"".toList
        (fun c => (decide ('a' ≤ c) && decide (c ≤ 'z')) || (decide ('0' ≤ c) && decide (c ≤ '9')))
        "\" />".toList text v) ∧
    (∃ v, findString (tablibTokenPattern.FindStringSubmatch text) 1 = .returned v ∧
      LeftmostField
        "<input type=\"hidden\" name=\"org.apache.struts.taglib.html.TOKEN\" value=\"".toList
        (fun c => (decide ('0' ≤ c) && decide (c ≤ '9')) || c == '.') "\">".toList text v) :=
  ⟨extract_leftmostField tokenIDPattern '"' "/>".toList rfl (by decide) text,
    extract_leftmostField txtParamPattern '"' " />".toList rfl (by decide) text,
    extract_leftmostField tablibTokenPattern '"' ">".toList rfl (by decide) text⟩

/-! ## C10: the account pattern -/

/-- C10: for every account number `a` of exactly ten digits, the label
`GetTransactions` searches for is `a[0:3]-a[3:4]-a[4:9]-a[9:10]` and a blank
(groups of three, one, five and one digits whose concatenation is `a`);
building the pattern does not panic; and the `acctId` that `GetTransactions`
posts is the non-empty digit string in the value attribute of the leftmost
`<option value="digits">` element of the statement-inquiry page whose label is
exactly that string (the empty string when the page has none). -/
theorem GetTransactions_account_pattern (doc : GoString → Except GoError (List Row))
    (k : KBank) (net : Net) (text : GoString)
    (hlen : k.accountNo.length = 10) (hd : ∀ c ∈ k.accountNo, isDigit c = true)
    (h0 : net.reply net.sent.length = .ok text) :
    (k.accountNo.take 3 ++ (k.accountNo.drop 3).take 1 ++ (k.accountNo.drop 4).take 5 ++
        (k.accountNo.drop 9).take 1 = k.accountNo ∧
      (k.accountNo.take 3).length = 3 ∧ ((k.accountNo.drop 3).take 1).length = 1 ∧
      ((k.accountNo.drop 4).take 5).length = 5 ∧ ((k.accountNo.drop 9).take 1).length = 1) ∧
    accountIDPattern k.accountNo = .returned
      { pre := "<option value=\"".toList
        cls := isDigit
        suf := "\">".toList ++
          (k.accountNo.take 3 ++ "-".toList ++ (k.accountNo.drop 3).take 1 ++ "-".toList ++
            (k.accountNo.drop 4).take 5 ++ "-".toList ++ (k.accountNo.drop 9).take 1 ++
            " ".toList) ++ "</option>".toList } ∧
    ∃ tok acc,
      (GetTransactions doc k net).2.sent = net.sent ++
        [ ⟨"GET".toList,
            ("https://ebank.kasikornbankgroup.com" ++
              "/retail/cashmanagement/TodayAccountStatementInquiry.do").toList, []⟩,
          ⟨"POST".toList,
            ("https://ebank.kasikornbankgroup.com" ++
              "/retail/cashmanagement/TodayAccountStatementInquiry.do").toList,
            [ ("org.apache.struts.taglib.html.TOKEN".toList, tok),
              ("captcha_check".toList, "null".toList),
              ("acctId".toList, acc),
              ("action".toList, "detail".toList),
              ("st".toList, "0".toList) ]⟩ ] ∧
      LeftmostField "<option value=\"".toList (fun c => decide ('0' ≤ c) && decide (c ≤ '9'))
        ("\">".toList ++
          (k.accountNo.take 3 ++ "-".toList ++ (k.accountNo.drop 3).take 1 ++ "-".toList ++
            (k.accountNo.drop 4).take 5 ++ "-".toList ++ (k.accountNo.drop 9).take 1 ++
            " ".toList) ++ "</option>".toList) text acc := by
  have hsuf : "\">".toList ++ k.accountNo.take 3 ++ "-".toList ++ (k.accountNo.drop 3).take 1 ++
      "-".toList ++ (k.accountNo.drop 4).take 5 ++ "-".toList ++
      (k.accountNo.drop 9).take 1 ++ " </option>".toList =
      "\">".toList ++
        (k.accountNo.take 3 ++ "-".toList ++ (k.accountNo.drop 3).take 1 ++ "-".toList ++
          (k.accountNo.drop 4).take 5 ++ "-".toList ++ (k.accountNo.drop 9).take 1 ++
          " ".toList) ++ "</option>".toList := by
    have h1 : " </option>".toList = " ".toList ++ "</option>".toList := by decide
    rw [h1]
    simp only [List.append_assoc]
  have hp := accountIDPattern_digits k.accountNo hlen hd
  rw [hsuf] at hp
  refine ⟨?_, hp, ?_⟩
  · match hk : k.accountNo, hlen with
    | [a0, a1, a2, a3, a4, a5, a6, a7, a8, a9], _ => simp
  · obtain ⟨tok, acc, _, hacc, hsent, _⟩ := GetTransactions_ok0 doc k net text _ h0 hp
    obtain ⟨v, hv, hl⟩ := extract_leftmostField
      { pre := "<option value=\"".toList
        cls := isDigit
        suf := "\">".toList ++
          (k.accountNo.take 3 ++ "-".toList ++ (k.accountNo.drop 3).take 1 ++ "-".toList ++
            (k.accountNo.drop 4).take 5 ++ "-".toList ++ (k.accountNo.drop 9).take 1 ++
            " ".toList) ++ "</option>".toList } '"'
      (">".toList ++
        (k.accountNo.take 3 ++ "-".toList ++ (k.accountNo.drop 3).take 1 ++ "-".toList ++
          (k.accountNo.drop 4).take 5 ++ "-".toList ++ (k.accountNo.drop 9).take 1 ++
          " ".toList) ++ "</option>".toList) rfl
      (show isDigit '"' = false by decide) text
    rw [hacc] at hv
    have hacc2 : acc = v := by
      simpa using hv
    rw [hacc2] at hsent
    exact ⟨tok, v, hsent, hl⟩

/-- C10, at a concrete input: the account number `1234567890` and a page with
two options, of which the second carries the label `123-4-56789-0 `; the
`acctId` posted is its value `42`. -/
theorem GetTransactions_account_pattern_witness :
    ("1234567890".toList.length = 10 ∧ ∀ c ∈ "1234567890".toList, isDigit c = true) ∧
    (∃ tok acc,
      (GetTransactions (fun _ => .ok []) ⟨"u".toList, "p".toList, "1234567890".toList⟩
        ⟨fun _ => .ok ("<option value=\"7\">999-9-99999-9 </option>" ++
          "<option value=\"42\">123-4-56789-0 </option>").toList, []⟩).2.sent = [] ++
        [ ⟨"GET".toList,
            ("https://ebank.kasikornbankgroup.com" ++
              "/retail/cashmanagement/TodayAccountStatementInquiry.do").toList, []⟩,
          ⟨"POST".toList,
            ("https://ebank.kasikornbankgroup.com" ++
              "/retail/cashmanagement/TodayAccountStatementInquiry.do").toList,
            [ ("org.apache.struts.taglib.html.TOKEN".toList, tok),
              ("captcha_check".toList, "null".toList),
              ("acctId".toList, acc),
              ("action".toList, "detail".toList),
              ("st".toList, "0".toList) ]⟩ ] ∧
      LeftmostField "<option value=\"".toList (fun c => decide ('0' ≤ c) && decide (c ≤ '9'))
        ("\">".toList ++
          ("1234567890".toList.take 3 ++ "-".toList ++ ("1234567890".toList.drop 3).take 1 ++
            "-".toList ++ ("1234567890".toList.drop 4).take 5 ++ "-".toList ++
            ("1234567890".toList.drop 9).take 1 ++ " ".toList) ++ "</option>".toList)
        ("<option value=\"7\">999-9-99999-9 </option>" ++
          "<option value=\"42\">123-4-56789-0 </option>").toList acc) ∧
    ((GetTransactions (fun _ => .ok []) ⟨"u".toList, "p".toList, "1234567890".toList⟩
        ⟨fun _ => .ok ("<option value=\"7\">999-9-99999-9 </option>" ++
          "<option value=\"42\">123-4-56789-0 </option>").toList, []⟩).2.sent.map
        (fun r => r.form.lookup "acctId".toList)) = [none, some "42".toList] :=
  ⟨by decide,
    (GetTransactions_account_pattern (fun _ => .ok [])
      ⟨"u".toList, "p".toList, "1234567890".toList⟩
      ⟨fun _ => .ok ("<option value=\"7\">999-9-99999-9 </option>" ++
        "<option value=\"42\">123-4-56789-0 </option>").toList, []⟩
      ("<option value=\"7\">999-9-99999-9 </option>" ++
        "<option value=\"42\">123-4-56789-0 </option>").toList
      (by decide) (by decide) rfl).2.2,
    by decide⟩

end GoKBank
